import Mathlib

/-!
Verification development for the Discord provider of the openclaw gateway
(`discord/monitor.ts` in the repository sources). The TypeScript functions are
shallowly embedded as executable Lean definitions: JS strings become `String`,
JS `Set<string>` becomes an insertion-ordered duplicate-free `List String`,
`Record<string, T>` becomes an association list, nullable values become
`Option`, and the mutable per-channel history map becomes a function
`String → List DiscordHistoryEntry` updated functionally.
-/

/-! ## JS string primitives (ASCII fragment of the ECMAScript behaviour) -/

/-- Whitespace for the model of JS `String.prototype.trim` and the regex
class used by the slug normalizer (ASCII subset). -/
def jsIsWhitespace (c : Char) : Bool :=
  c == ' ' || c == '\t' || c == '\n' || c == '\r' || c == '\x0b' || c == '\x0c'

/-- Model of JS `trim`: strips leading and trailing whitespace. -/
def jsTrim (s : String) : String :=
  String.mk (((s.toList.dropWhile jsIsWhitespace).reverse.dropWhile jsIsWhitespace).reverse)

/-- Model of JS `toLowerCase` on the ASCII range. -/
def jsToLowerChar (c : Char) : Char :=
  if 'A' ≤ c ∧ c ≤ 'Z' then Char.ofNat (c.toNat + 32) else c

/-- Model of JS `toLowerCase` (ASCII). -/
def jsToLower (s : String) : String :=
  String.mk (s.toList.map jsToLowerChar)

/-- Model of JS `startsWith`. -/
def jsStartsWith (s pat : String) : Bool :=
  pat.toList.isPrefixOf s.toList

/-- Model of JS `slice(n)` for ASCII strings (code units = characters). -/
def jsDropChars (s : String) (n : Nat) : String :=
  String.mk (s.toList.drop n)

/-- JS `||` on strings: the left operand unless it is falsy (empty). -/
def jsOr (a b : String) : String :=
  if a = "" then b else a

/-- JS truthiness of an optional string: present and non-empty. -/
def jsTruthy (o : Option String) : Bool :=
  o.getD "" ≠ ""

/-! ## Text chunking -/

/-- Fuel-indexed splitter: cuts a character list into pieces of at most
`limit` characters, taking from the front. -/
def chunkChars : Nat → List Char → Nat → List (List Char)
  | _, [], _ => []
  | 0, l, _ => [l]
  | fuel + 1, l, limit => l.take limit :: chunkChars fuel (l.drop limit) limit

/-- Modelled from the spec: `chunkText` lives in `auto-reply/chunk.ts`, which
is not part of the provided sources. Per spec sections 4.5 and 8, chunking a
text against limit `C` produces chunks each of length at most `C` whose
concatenation reproduces the original text. The model cuts at exactly the
limit (treating a limit of 0 as 1 so that chunks are never empty). -/
def chunkText (text : String) (limit : Nat) : List String :=
  (chunkChars text.toList.length text.toList (max 1 limit)).map String.mk

/-! ## Allow-list data model (`normalizeDiscordAllowList` and friends) -/

/-- `DiscordAllowList` from the source: wildcard flag plus id and name sets
(sets modelled as insertion-ordered duplicate-free lists). -/
structure DiscordAllowList where
  allowAll : Bool
  ids : List String
  names : List String
deriving DecidableEq

/-- `Set.add`: append preserving insertion order, no duplicates. -/
def addSet (s : List String) (x : String) : List String :=
  if s.contains x then s else s ++ [x]

/-- `normalizeDiscordName`: lowercased, trimmed; empty for null input. -/
def normalizeDiscordName (value : Option String) : String :=
  match value with
  | none => ""
  | some v => jsToLower (jsTrim v)

/-- State machine for a global regex replace of `p+` by `"-"`: `inRun` is
true while inside a run of characters satisfying `p`, so only the first
character of each maximal run emits the dash. -/
def replaceRunsGo (p : Char → Bool) : Bool → List Char → List Char
  | _, [] => []
  | inRun, c :: rest =>
    if p c then (if inRun then [] else ['-']) ++ replaceRunsGo p true rest
    else c :: replaceRunsGo p false rest

/-- Replaces every maximal run of characters satisfying `p` with a single
dash, modelling a global regex replace of `p+` by `"-"`. -/
def replaceRuns (p : Char → Bool) (l : List Char) : List Char :=
  replaceRunsGo p false l

/-- Characters kept by the slug normalizer: `[a-z0-9-]`. -/
def isSlugKeep (c : Char) : Bool :=
  ('a' ≤ c && c ≤ 'z') || ('0' ≤ c && c ≤ '9') || c == '-'

/-- Strips leading and trailing dashes (the final regex of the slug pipeline). -/
def dropDashEnds (l : List Char) : List Char :=
  ((l.dropWhile (fun c => c == '-')).reverse.dropWhile (fun c => c == '-')).reverse

/-- `normalizeDiscordSlug`: trim and lowercase, strip leading `@`/`#` runs,
collapse whitespace/underscore runs to `-`, collapse runs of other
non-`[a-z0-9-]` characters to `-`, collapse dash runs, strip edge dashes. -/
def normalizeDiscordSlug (value : String) : String :=
  let text := jsToLower (jsTrim value)
  if text = "" then ""
  else
    let l1 := text.toList.dropWhile (fun c => c == '@' || c == '#')
    let l2 := replaceRuns (fun c => jsIsWhitespace c || c == '_') l1
    let l3 := replaceRuns (fun c => !isSlugKeep c) l2
    let l4 := replaceRuns (fun c => c == '-') l3
    String.mk (dropDashEnds l4)

/-- The digits-then-`>` tail of the mention pattern `^<[@#][!]?(\d+)>$`. -/
def parseMentionDigits (l : List Char) : Option String :=
  let digits := l.takeWhile Char.isDigit
  let rest := l.dropWhile Char.isDigit
  if digits ≠ [] ∧ rest = ['>'] then some (String.mk digits) else none

/-- The mention pattern `^<[@#][!]?(\d+)>$` applied to an entry, returning
the captured id. -/
def parseMention (s : String) : Option String :=
  match s.toList with
  | '<' :: marker :: rest =>
    if marker = '@' ∨ marker = '#' then
      match rest with
      | '!' :: tail => parseMentionDigits tail
      | tail => parseMentionDigits tail
    else none
  | _ => none

/-- The prefix-stripping loop of `normalizeDiscordAllowList`: the first
matching marker (case-insensitively) is removed from the front. -/
def stripProviderTag (entry : String) (markers : List String) : String :=
  match markers.find? (fun mk => jsStartsWith (jsToLower entry) mk) with
  | some mk => jsDropChars entry mk.length
  | none => entry

/-- One iteration of the `normalizeDiscordAllowList` loop body. -/
def allowListStep (markers : List String) (acc : DiscordAllowList) (rawEntry : String) :
    DiscordAllowList :=
  let entry := jsTrim rawEntry
  if entry = "" then acc
  else if entry = "*" then { acc with allowAll := true }
  else
    let entry1 := stripProviderTag entry markers
    match parseMention entry1 with
    | some mid => { acc with ids := addSet acc.ids mid }
    | none =>
      let entry2 := jsTrim entry1
      let entry3 :=
        if jsStartsWith entry2 "@" || jsStartsWith entry2 "#" then jsDropChars entry2 1
        else entry2
      if entry3 ≠ "" ∧ entry3.toList.all Char.isDigit then
        { acc with ids := addSet acc.ids entry3 }
      else
        let normalized := normalizeDiscordName (some entry3)
        let acc1 :=
          if normalized ≠ "" then { acc with names := addSet acc.names normalized } else acc
        let slugged := normalizeDiscordSlug entry3
        if slugged ≠ "" then { acc1 with names := addSet acc1.names slugged } else acc1

/-- `normalizeDiscordAllowList`: null for an empty raw list; otherwise folds
the entries and returns null when nothing (no wildcard, no id, no name) was
collected. -/
def normalizeDiscordAllowList (raw : List String) (markers : List String) :
    Option DiscordAllowList :=
  if raw.isEmpty then none
  else
    let result := raw.foldl (allowListStep markers) { allowAll := false, ids := [], names := [] }
    if ¬result.allowAll ∧ result.ids.isEmpty ∧ result.names.isEmpty then none
    else some result

/-- The candidate record passed to `allowListMatches` (all fields may be
absent or null). -/
structure AllowCandidate where
  id : Option String := none
  name : Option String := none
  tag : Option String := none
deriving DecidableEq

/-- `allowListMatches`: wildcard, exact id, case-folded name/tag, or
slug-folded name/tag. -/
def allowListMatches (allowList : DiscordAllowList) (c : AllowCandidate) : Bool :=
  if allowList.allowAll then true
  else if jsTruthy c.id && allowList.ids.contains (c.id.getD "") then true
  else
    let normalizedName := normalizeDiscordName c.name
    if normalizedName ≠ "" && allowList.names.contains normalizedName then true
    else
      let normalizedTag := normalizeDiscordName c.tag
      if normalizedTag ≠ "" && allowList.names.contains normalizedTag then true
      else
        let slugName := normalizeDiscordSlug (c.name.getD "")
        if slugName ≠ "" && allowList.names.contains slugName then true
        else
          let slugTag := normalizeDiscordSlug (c.tag.getD "")
          slugTag ≠ "" && allowList.names.contains slugTag

/-! ## Reply payloads and outbound delivery (`deliverReplies`) -/

/-- `ReplyToMode` from the configuration: `off`, `all`, or the default
per-turn first-message threading. -/
inductive ReplyToMode where
  | off
  | all
  | first
deriving DecidableEq

/-- `ReplyPayload` from `auto-reply/types`: optional text, media and the id
of the inbound message a reply should thread to. -/
structure ReplyPayload where
  text : Option String := none
  mediaUrl : Option String := none
  mediaUrls : Option (List String) := none
  replyToId : Option String := none
deriving DecidableEq

/-- One outbound Discord send as handed to `sendMessageDiscord`: target,
text content (chunk or caption), optional media URL and optional threaded
reply reference. -/
structure DiscordSend where
  target : String
  content : String
  mediaUrl : Option String := none
  replyTo : Option String := none
deriving DecidableEq

/-- `resolveDiscordReplyTarget`: no reference when the mode is `off` or the
payload id is blank; always the id in mode `all`; otherwise only until the
turn has replied once. -/
def resolveDiscordReplyTarget (replyToMode : ReplyToMode) (replyToId : Option String)
    (hasReplied : Bool) : Option String :=
  if replyToMode = .off then none
  else
    let r := jsTrim (replyToId.getD "")
    if r = "" then none
    else if replyToMode = .all then some r
    else if hasReplied then none else some r

/-- The media list of a payload: `mediaUrls` when present, else the single
truthy `mediaUrl`, else empty. -/
def payloadMediaList (p : ReplyPayload) : List String :=
  match p.mediaUrls with
  | some l => l
  | none =>
    match p.mediaUrl with
    | some u => if u ≠ "" then [u] else []
    | none => []

/-- The text-only branch of the delivery loop: one send per chunk, threading
resolved per send and the has-replied flag updated after a threaded send. -/
def sendTextChunks (target : String) (mode : ReplyToMode) (replyToId : Option String) :
    List String → Bool → List DiscordSend × Bool
  | [], hasReplied => ([], hasReplied)
  | chunk :: rest, hasReplied =>
    let replyTo := resolveDiscordReplyTarget mode replyToId hasReplied
    let hasReplied2 := if replyTo.isSome ∧ ¬hasReplied then true else hasReplied
    let next := sendTextChunks target mode replyToId rest hasReplied2
    ({ target := target, content := chunk, mediaUrl := none, replyTo := replyTo } :: next.1,
     next.2)

/-- The media branch of the delivery loop: one send per media URL; the first
send carries the payload text as caption, later ones an empty caption. -/
def sendMediaItems (target : String) (mode : ReplyToMode) (replyToId : Option String)
    (text : String) : List String → Bool → Bool → List DiscordSend × Bool
  | [], _, hasReplied => ([], hasReplied)
  | mediaUrl :: rest, first, hasReplied =>
    let caption := if first then text else ""
    let replyTo := resolveDiscordReplyTarget mode replyToId hasReplied
    let hasReplied2 := if replyTo.isSome ∧ ¬hasReplied then true else hasReplied
    let next := sendMediaItems target mode replyToId text rest false hasReplied2
    ({ target := target, content := caption, mediaUrl := some mediaUrl, replyTo := replyTo }
       :: next.1,
     next.2)

/-- The body of the `deliverReplies` loop for one payload: skip when both
text and media are absent, else the text branch or the media branch. -/
def deliverPayload (target : String) (mode : ReplyToMode) (chunkLimit : Nat)
    (p : ReplyPayload) (hasReplied : Bool) : List DiscordSend × Bool :=
  let mediaList := payloadMediaList p
  let text := p.text.getD ""
  if text = "" ∧ mediaList.isEmpty then ([], hasReplied)
  else if mediaList.isEmpty then
    sendTextChunks target mode p.replyToId (chunkText text chunkLimit) hasReplied
  else
    sendMediaItems target mode p.replyToId text mediaList true hasReplied

/-- The `deliverReplies` loop over the payload list, threading the per-turn
has-replied flag. -/
def deliverPayloads (target : String) (mode : ReplyToMode) (chunkLimit : Nat) :
    List ReplyPayload → Bool → List DiscordSend × Bool
  | [], hasReplied => ([], hasReplied)
  | p :: rest, hasReplied =>
    let here := deliverPayload target mode chunkLimit p hasReplied
    let next := deliverPayloads target mode chunkLimit rest here.2
    (here.1 ++ next.1, next.2)

/-- `deliverReplies`: chunk limit capped at the Discord hard limit of 2000,
has-replied flag starts false for the turn. -/
def deliverReplies (replies : List ReplyPayload) (target : String) (mode : ReplyToMode)
    (textLimit : Nat) : List DiscordSend :=
  (deliverPayloads target mode (min textLimit 2000) replies false).1

/-! ## Inbound message data model -/

/-- The message author (discord.js `User`): id, username, derived tag, bot
flag. -/
structure DiscordAuthor where
  id : String
  username : String
  tag : String
  isBot : Bool := false
deriving DecidableEq

/-- Channel kinds distinguished by the handler: `DM`, `GroupDM`, or a guild
channel (any other channel type). -/
inductive DiscordChannelKind where
  | dm
  | groupDm
  | guildText
deriving DecidableEq

/-- The guild a message belongs to (discord.js `Guild`): id and name. -/
structure DiscordGuildRef where
  id : String
  name : String
deriving DecidableEq

/-- The discord.js `MessageType` values the handler distinguishes; all types
not matched by `resolveDiscordSystemEvent` or the command check behave like
`default`. -/
inductive DiscordMessageType where
  | default
  | chatInputCommand
  | contextMenuCommand
  | channelPinnedMessage
  | recipientAdd
  | recipientRemove
  | userJoin
  | guildBoost
  | guildBoostTier1
  | guildBoostTier2
  | guildBoostTier3
  | threadCreated
  | autoModerationAction
  | guildIncidentAlertModeEnabled
  | guildIncidentAlertModeDisabled
  | guildIncidentReportRaid
  | guildIncidentReportFalseAlarm
  | stageStart
  | stageEnd
  | stageSpeaker
  | stageTopic
  | pollResult
  | purchaseNotification
deriving DecidableEq

/-- A message attachment together with the outcome of downloading its URL
(`fetch` result observed by `resolveMedia`): HTTP status, body size, and the
content-type header. -/
structure DiscordAttachment where
  url : String
  name : Option String := none
  contentType : Option String := none
  fetchStatus : Nat := 200
  fetchBytes : Nat := 0
  fetchContentTypeHeader : Option String := none
deriving DecidableEq

/-- A forwarded-message snapshot (discord.js `MessageSnapshot`): the fields
the handler reads. -/
structure DiscordSnapshot where
  content : Option String := none
  embedDescription : Option String := none
  createdTimestamp : Option Nat := none
  snapshotType : Option Nat := none
deriving DecidableEq

/-- `message.reference`: ids of the message a forward or reply points at. -/
structure DiscordMessageRef where
  messageId : Option String := none
  channelId : Option String := none
  guildId : Option String := none
deriving DecidableEq

/-- The inbound `Events.MessageCreate` payload restricted to the fields the
handler reads. `embedDescription` models `message.embeds[0]?.description`;
`channelName` models the channel `name` property when present and non-null. -/
structure DiscordInboundMessage where
  author : Option DiscordAuthor
  memberDisplayName : Option String := none
  channelKind : DiscordChannelKind
  guild : Option DiscordGuildRef := none
  channelId : String
  channelName : Option String := none
  messageType : DiscordMessageType := .default
  content : Option String := none
  embedDescription : Option String := none
  attachment : Option DiscordAttachment := none
  mentionedUserIds : List String := []
  messageSnapshots : List DiscordSnapshot := []
  reference : Option DiscordMessageRef := none
  id : String
  createdTimestamp : Nat := 0
deriving DecidableEq

/-- `DiscordHistoryEntry`: one stored history line. -/
structure DiscordHistoryEntry where
  sender : String
  body : String
  timestamp : Option Nat := none
  messageId : Option String := none
deriving DecidableEq

/-- The mutable `guildHistories` map, keyed by channel id. -/
def HistMap : Type := String → List DiscordHistoryEntry

/-- Point update of the history map (`guildHistories.set`). -/
def updateMap (h : HistMap) (k : String) (v : List DiscordHistoryEntry) : HistMap :=
  fun key => if key = k then v else h key

/-- The `while (history.length > limit) history.shift()` loop: drops from
the front until the length is within the limit. -/
def evictOldest {α : Type} : List α → Nat → List α
  | [], _ => []
  | x :: rest, limit =>
    if rest.length + 1 > limit then evictOldest rest limit else x :: rest

/-! ## Guild and channel configuration resolution -/

/-- Reaction-notification modes of a guild entry. -/
inductive ReactionMode where
  | off
  | own
  | all
  | allowlist
deriving DecidableEq

/-- A per-channel entry of a guild configuration. -/
structure DiscordChannelEntry where
  allow : Option Bool := none
  requireMention : Option Bool := none
deriving DecidableEq

/-- A raw `discord.guilds` entry as configured. -/
structure DiscordGuildEntry where
  slug : Option String := none
  requireMention : Option Bool := none
  reactionNotifications : Option ReactionMode := none
  users : Option (List String) := none
  channels : Option (List (String × DiscordChannelEntry)) := none
deriving DecidableEq

/-- `DiscordGuildEntryResolved`: a guild entry matched to a concrete guild. -/
structure DiscordGuildEntryResolved where
  id : String
  slug : String
  requireMention : Option Bool := none
  reactionNotifications : Option ReactionMode := none
  users : Option (List String) := none
  channels : Option (List (String × DiscordChannelEntry)) := none
deriving DecidableEq

/-- `DiscordChannelConfigResolved`: whether the channel is allowed and its
mention requirement override. -/
structure DiscordChannelConfigResolved where
  allowed : Bool
  requireMention : Option Bool := none
deriving DecidableEq

/-- Key lookup in a JS object modelled as an association list. -/
def lookupRecord {α : Type} (entries : List (String × α)) (key : String) : Option α :=
  (entries.find? (fun e => e.1 = key)).map (fun e => e.2)

/-- Builds the resolved guild entry from a raw entry and the guild facts. -/
def resolveGuildEntryWith (guildId guildSlug : String) (entry : DiscordGuildEntry) :
    DiscordGuildEntryResolved :=
  { id := guildId
    slug := entry.slug.getD guildSlug
    requireMention := entry.requireMention
    reactionNotifications := entry.reactionNotifications
    users := entry.users
    channels := entry.channels }

/-- `resolveDiscordGuildEntry`: exact id match, then exact slug key match,
then slug-normalized match over all entries, then the `"*"` wildcard. -/
def resolveDiscordGuildEntry (guild : Option DiscordGuildRef)
    (guildEntries : Option (List (String × DiscordGuildEntry))) :
    Option DiscordGuildEntryResolved :=
  match guild, guildEntries with
  | none, _ => none
  | _, none => none
  | some g, some entries =>
    if entries.isEmpty then none
    else
      let guildId := g.id
      let guildSlug := normalizeDiscordSlug g.name
      match lookupRecord entries guildId with
      | some direct => some (resolveGuildEntryWith guildId guildSlug direct)
      | none =>
        match (if guildSlug ≠ "" then lookupRecord entries guildSlug else none) with
        | some entry => some (resolveGuildEntryWith guildId guildSlug entry)
        | none =>
          match entries.find? (fun e =>
              let entrySlug := normalizeDiscordSlug (e.2.slug.getD "")
              entrySlug ≠ "" ∧ entrySlug = guildSlug) with
          | some matched => some (resolveGuildEntryWith guildId guildSlug matched.2)
          | none =>
            match lookupRecord entries "*" with
            | some wildcard => some (resolveGuildEntryWith guildId guildSlug wildcard)
            | none => none

/-- `resolveDiscordChannelConfig`: with no channel entries everything is
allowed; otherwise the entry is looked up by id, slug, `#slug`, or the slug
of the channel name, and a missing entry means the channel is blocked. -/
def resolveDiscordChannelConfig (guildInfo : Option DiscordGuildEntryResolved)
    (channelId : String) (channelName : Option String) (channelSlug : String) :
    DiscordChannelConfigResolved :=
  match guildInfo.bind (fun g => g.channels) with
  | some channelEntries =>
    if channelEntries.isEmpty then { allowed := true }
    else
      let entry :=
        (lookupRecord channelEntries channelId).orElse (fun _ =>
          ((if channelSlug ≠ "" then
              (lookupRecord channelEntries channelSlug).orElse (fun _ =>
                lookupRecord channelEntries ("#" ++ channelSlug))
            else none)).orElse (fun _ =>
            match channelName with
            | some n => lookupRecord channelEntries (normalizeDiscordSlug n)
            | none => none))
      match entry with
      | none => { allowed := false }
      | some e => { allowed := e.allow ≠ some false, requireMention := e.requireMention }
  | none => { allowed := true }

/-- `resolveGroupDmAllow`: unrestricted without configured channels; else the
group-DM channel must match the allow list built with the `channel:` marker. -/
def resolveGroupDmAllow (channels : Option (List String)) (channelId : String)
    (channelName : Option String) (channelSlug : String) : Bool :=
  match channels with
  | none => true
  | some cs =>
    if cs.isEmpty then true
    else
      match normalizeDiscordAllowList cs ["channel:"] with
      | none => true
      | some allowList =>
        allowListMatches allowList
          { id := some channelId
            name := if channelSlug ≠ "" then some channelSlug else channelName }

/-! ## Message text, system events and media -/

/-- `inferPlaceholder`: a human placeholder derived from the attachment MIME
type. -/
def inferPlaceholder (att : DiscordAttachment) : String :=
  let mime := att.contentType.getD ""
  if jsStartsWith mime "image/" then "<media:image>"
  else if jsStartsWith mime "video/" then "<media:video>"
  else if jsStartsWith mime "audio/" then "<media:audio>"
  else "<media:document>"

/-- `resolveDiscordSnapshotText`: snapshot content, else the first embed
description, else empty (JS falsy fallbacks). -/
def resolveDiscordSnapshotText (s : DiscordSnapshot) : String :=
  jsOr (jsTrim (s.content.getD "")) (s.embedDescription.getD "")

/-- `resolveDiscordMessageText`: trimmed content, else an attachment
placeholder, else the first embed description, else the trimmed fallback
text (JS falsy fallbacks). -/
def resolveDiscordMessageText (m : DiscordInboundMessage) (fallbackText : String) : String :=
  jsOr
    (jsOr
      (jsOr (jsTrim (m.content.getD ""))
        (match m.attachment with
         | some att => inferPlaceholder att
         | none => ""))
      (m.embedDescription.getD ""))
    (jsTrim fallbackText)

/-- Forwarded-snapshot info assembled by `resolveForwardedSnapshot`. -/
structure DiscordForwardInfo where
  snapshot : DiscordSnapshot
  messageId : Option String := none
  channelId : Option String := none
  guildId : Option String := none
deriving DecidableEq

/-- `resolveForwardedSnapshot`: the first message snapshot plus the ids of
the referenced message, when any snapshot exists. -/
def resolveForwardedSnapshot (m : DiscordInboundMessage) : Option DiscordForwardInfo :=
  match m.messageSnapshots with
  | [] => none
  | s :: _ =>
    some { snapshot := s
           messageId := m.reference.bind (fun r => r.messageId)
           channelId := m.reference.bind (fun r => r.channelId)
           guildId := m.reference.bind (fun r => r.guildId) }

/-- `buildDiscordSystemEvent`: renders the system-event notification line. -/
def buildDiscordSystemEvent (m : DiscordInboundMessage) (action : String) : String :=
  let channelName := m.channelName.getD m.channelId
  let guildName := (m.guild.map (fun g => g.name)).getD ""
  let location :=
    if guildName ≠ "" then guildName ++ " #" ++ channelName
    else if m.channelKind = .groupDm then "Group DM #" ++ channelName
    else "DM"
  let authorLabel := (m.author.map (fun a => a.tag)).getD ""
  let actor := if authorLabel ≠ "" then authorLabel ++ " " else ""
  "Discord system: " ++ actor ++ action ++ " in " ++ location

/-- `resolveDiscordSystemEvent`: maps the recognized system message types to
their notification text; conversational types map to none. -/
def resolveDiscordSystemEvent (m : DiscordInboundMessage) : Option String :=
  match m.messageType with
  | .channelPinnedMessage => some (buildDiscordSystemEvent m "pinned a message")
  | .recipientAdd => some (buildDiscordSystemEvent m "added a recipient")
  | .recipientRemove => some (buildDiscordSystemEvent m "removed a recipient")
  | .userJoin => some (buildDiscordSystemEvent m "user joined")
  | .guildBoost => some (buildDiscordSystemEvent m "boosted the server")
  | .guildBoostTier1 => some (buildDiscordSystemEvent m "boosted the server (Tier 1 reached)")
  | .guildBoostTier2 => some (buildDiscordSystemEvent m "boosted the server (Tier 2 reached)")
  | .guildBoostTier3 => some (buildDiscordSystemEvent m "boosted the server (Tier 3 reached)")
  | .threadCreated => some (buildDiscordSystemEvent m "created a thread")
  | .autoModerationAction => some (buildDiscordSystemEvent m "auto moderation action")
  | .guildIncidentAlertModeEnabled => some (buildDiscordSystemEvent m "raid protection enabled")
  | .guildIncidentAlertModeDisabled => some (buildDiscordSystemEvent m "raid protection disabled")
  | .guildIncidentReportRaid => some (buildDiscordSystemEvent m "raid reported")
  | .guildIncidentReportFalseAlarm =>
    some (buildDiscordSystemEvent m "raid report marked false alarm")
  | .stageStart => some (buildDiscordSystemEvent m "stage started")
  | .stageEnd => some (buildDiscordSystemEvent m "stage ended")
  | .stageSpeaker => some (buildDiscordSystemEvent m "stage speaker updated")
  | .stageTopic => some (buildDiscordSystemEvent m "stage topic updated")
  | .pollResult => some (buildDiscordSystemEvent m "poll results posted")
  | .purchaseNotification => some (buildDiscordSystemEvent m "purchase notification")
  | _ => none

/-- What `saveMediaBuffer` returns: the stored path and content type. -/
structure DiscordSavedMedia where
  path : String
  contentType : Option String := none
deriving DecidableEq

/-- Modelled from the spec: `detectMime` lives in `media/mime.ts`, which is
not part of the provided sources. The model keeps the header-provided MIME
type, defaulting to a generic binary type. -/
def detectMime (headerMime : Option String) : String :=
  headerMime.getD "application/octet-stream"

/-- Modelled from the spec: `saveMediaBuffer` lives in `media/store.ts`,
which is not part of the provided sources. Per spec section 4.2 the byte-size
cap must fail the turn with an explicit error; the stored path is modelled by
the source URL. -/
def saveMediaBuffer (url : String) (bytes : Nat) (mime : String) (maxBytes : Nat) :
    Except String DiscordSavedMedia :=
  if bytes > maxBytes then Except.error "media exceeds size cap"
  else Except.ok { path := url, contentType := some mime }

/-- `DiscordMediaInfo`: the resolved inbound media of a turn. -/
structure DiscordMediaInfo where
  path : String
  contentType : Option String := none
  placeholder : String
deriving DecidableEq

/-- `resolveMedia`: no attachment means no media; a non-2xx download status
throws; otherwise the buffer is MIME-sniffed and saved under the size cap. -/
def resolveMedia (m : DiscordInboundMessage) (maxBytes : Nat) :
    Except String (Option DiscordMediaInfo) :=
  match m.attachment with
  | none => Except.ok none
  | some att =>
    if ¬(200 ≤ att.fetchStatus ∧ att.fetchStatus ≤ 299) then
      Except.error ("Failed to download discord attachment: HTTP " ++ toString att.fetchStatus)
    else
      let mime := detectMime (att.contentType.orElse (fun _ => att.fetchContentTypeHeader))
      match saveMediaBuffer att.url att.fetchBytes mime maxBytes with
      | Except.error e => Except.error e
      | Except.ok saved =>
        Except.ok (some { path := saved.path
                          contentType := saved.contentType
                          placeholder := inferPlaceholder att })

/-! ## Monitor configuration and derived per-message quantities -/

/-- The configuration snapshot `monitorDiscordProvider` computes before
subscribing (bot id known once the client is ready). `historyLimit` is
already clamped to be non-negative by construction of `Nat`. -/
structure DiscordMonitorConfig where
  botId : Option String := none
  dmEnabled : Bool := true
  groupDmEnabled : Bool := false
  groupDmChannels : Option (List String) := none
  allowFrom : Option (List String) := none
  guildEntries : Option (List (String × DiscordGuildEntry)) := none
  historyLimit : Nat := 20
  mediaMaxBytes : Nat := 8388608
  textLimit : Nat := 2000
  replyToMode : ReplyToMode := .off

/-- `guildEntries && Object.keys(guildEntries).length > 0`. -/
def guildEntriesPresent (ge : Option (List (String × DiscordGuildEntry))) : Bool :=
  match ge with
  | some l => !l.isEmpty
  | none => false

/-- `wasMentioned`: never for direct messages; otherwise the bot id must be
known and among the mentioned users. -/
def discordWasMentioned (cfg : DiscordMonitorConfig) (m : DiscordInboundMessage) : Bool :=
  !(m.channelKind == .dm) &&
    (match cfg.botId with
     | some b => m.mentionedUserIds.contains b
     | none => false)

/-- The forwarded-snapshot text of the message, empty when not forwarded. -/
def discordForwardedText (m : DiscordInboundMessage) : String :=
  match resolveForwardedSnapshot m with
  | some f => resolveDiscordSnapshotText f.snapshot
  | none => ""

/-- `baseText`: the message text used for the history entry. -/
def discordBaseText (m : DiscordInboundMessage) : String :=
  resolveDiscordMessageText m (discordForwardedText m)

/-- The channel name as read by the handler: only guild channels and group
DMs expose a `name` property. -/
def admissionChannelName (m : DiscordInboundMessage) : Option String :=
  if m.guild.isSome ∨ m.channelKind = .groupDm then m.channelName else none

/-- `channelSlug`: the slug of the channel name, when truthy. -/
def discordChannelSlug (m : DiscordInboundMessage) : String :=
  match admissionChannelName m with
  | some n => normalizeDiscordSlug n
  | none => ""

/-- `guildInfo`: the resolved guild entry, only for guild messages. -/
def discordGuildInfo (cfg : DiscordMonitorConfig) (m : DiscordInboundMessage) :
    Option DiscordGuildEntryResolved :=
  if m.guild.isSome then resolveDiscordGuildEntry m.guild cfg.guildEntries else none

/-- `channelConfig`: resolved channel settings, only for guild messages. -/
def discordChannelConfig (cfg : DiscordMonitorConfig) (m : DiscordInboundMessage) :
    Option DiscordChannelConfigResolved :=
  if m.guild.isSome then
    some (resolveDiscordChannelConfig (discordGuildInfo cfg m) m.channelId
      (admissionChannelName m) (discordChannelSlug m))
  else none

/-- `resolvedRequireMention`: channel override, else guild setting, else
true. -/
def discordRequireMention (cfg : DiscordMonitorConfig) (m : DiscordInboundMessage) : Bool :=
  (((discordChannelConfig cfg m).bind (fun c => c.requireMention)).orElse (fun _ =>
      (discordGuildInfo cfg m).bind (fun g => g.requireMention))).getD true

/-- The guild `users` allow-list gate: blocked when a non-empty list is
configured, normalizes to a non-null allow list, and the sender matches
neither id, username nor tag. -/
def discordGuildUserBlocked (cfg : DiscordMonitorConfig) (m : DiscordInboundMessage)
    (author : DiscordAuthor) : Bool :=
  match (discordGuildInfo cfg m).bind (fun g => g.users) with
  | some userAllow =>
    !userAllow.isEmpty &&
      (match normalizeDiscordAllowList userAllow ["discord:", "user:"] with
       | some users =>
         !allowListMatches users
           { id := some author.id, name := some author.username, tag := some author.tag }
       | none => false)
  | none => false

/-- The DM `allowFrom` gate: blocked when a non-empty list is configured and
the sender is not permitted (a null normalized list blocks as well). -/
def discordDmBlocked (cfg : DiscordMonitorConfig) (author : DiscordAuthor) : Bool :=
  match cfg.allowFrom with
  | some af =>
    !af.isEmpty &&
      (match normalizeDiscordAllowList af ["discord:", "user:"] with
       | some al =>
         !allowListMatches al
           { id := some author.id, name := some author.username, tag := some author.tag }
       | none => true)
  | none => false

/-- The history entry recorded for an inbound guild message. -/
def discordHistoryEntryOf (m : DiscordInboundMessage) (author : DiscordAuthor) :
    DiscordHistoryEntry :=
  { sender := m.memberDisplayName.getD author.tag
    body := discordBaseText m
    timestamp := some m.createdTimestamp
    messageId := some m.id }

/-- The history-append block of the handler: for guild messages with a
positive limit and non-empty text, append the entry and evict from the front
past the limit. -/
def guildHistoryAppend (histories : HistMap) (channelId : String) (historyLimit : Nat)
    (isGuildMessage : Bool) (baseText : String) (entry : DiscordHistoryEntry) : HistMap :=
  if isGuildMessage ∧ 0 < historyLimit ∧ baseText ≠ "" then
    updateMap histories channelId (evictOldest (histories channelId ++ [entry]) historyLimit)
  else histories

/-- The text of the turn (lines following media resolution): trimmed content
when the content field is present, else the media placeholder, else the first
embed description, else a forwarded-message marker. -/
def discordTurnText (m : DiscordInboundMessage) (media : Option DiscordMediaInfo) : String :=
  match m.content with
  | some c => jsTrim c
  | none =>
    match media with
    | some mi => mi.placeholder
    | none =>
      match m.embedDescription with
      | some d => d
      | none => if (resolveForwardedSnapshot m).isSome then "<forwarded message>" else ""

/-! ## The MessageCreate handler -/

/-- The reason a turn was dropped before reply generation, mirroring the
distinct early returns (and their log lines) of the handler. -/
inductive DropReason where
  | botAuthor
  | missingAuthor
  | groupDmDisabled
  | dmDisabled
  | commandMessage
  | guildNotAllowed
  | groupDmNotAllowed
  | channelNotAllowed
  | mentionRequired
  | guildUserNotAllowed
  | dmSenderNotAllowed
  | systemEvent
  | mediaFetchFailed
  | emptyContent
deriving DecidableEq

/-- Outcome of the admission part of the handler (everything up to and
including the empty-content check): either a drop with the histories as
mutated so far, or the data with which the turn proceeds. -/
inductive AdmissionResult where
  | drop (histories : HistMap) (reason : DropReason) (systemEvent : Option String)
      (mediaError : Option String)
  | proceed (histories : HistMap) (author : DiscordAuthor) (media : Option DiscordMediaInfo)
      (text : String)

/-- The admission pipeline of the `Events.MessageCreate` handler, in source
order: bot/missing author, group-DM and DM enable flags, channel command
types, guild allow, group-DM allow, channel allow, history append, mention
gate, guild user allow-list, DM allow-list, system events, media resolution,
empty content. -/
def discordAdmission (cfg : DiscordMonitorConfig) (histories : HistMap)
    (m : DiscordInboundMessage) : AdmissionResult :=
  if (m.author.map (fun a => a.isBot)).getD false = true then
    .drop histories .botAuthor none none
  else
    match m.author with
    | none => .drop histories .missingAuthor none none
    | some author =>
      if m.channelKind = .groupDm ∧ cfg.groupDmEnabled = false then
        .drop histories .groupDmDisabled none none
      else if m.channelKind = .dm ∧ cfg.dmEnabled = false then
        .drop histories .dmDisabled none none
      else if m.guild.isSome ∧
          (m.messageType = .chatInputCommand ∨ m.messageType = .contextMenuCommand) then
        .drop histories .commandMessage none none
      else if m.guild.isSome ∧ guildEntriesPresent cfg.guildEntries ∧
          discordGuildInfo cfg m = none then
        .drop histories .guildNotAllowed none none
      else if m.channelKind = .groupDm ∧
          resolveGroupDmAllow cfg.groupDmChannels m.channelId (admissionChannelName m)
            (discordChannelSlug m) = false then
        .drop histories .groupDmNotAllowed none none
      else if m.guild.isSome ∧
          (discordChannelConfig cfg m).map (fun c => c.allowed) = some false then
        .drop histories .channelNotAllowed none none
      else
        let histories1 := guildHistoryAppend histories m.channelId cfg.historyLimit
          m.guild.isSome (discordBaseText m) (discordHistoryEntryOf m author)
        if m.guild.isSome ∧ discordRequireMention cfg m = true ∧ cfg.botId.isSome ∧
            discordWasMentioned cfg m = false then
          .drop histories1 .mentionRequired none none
        else if m.guild.isSome ∧ discordGuildUserBlocked cfg m author = true then
          .drop histories1 .guildUserNotAllowed none none
        else if m.channelKind = .dm ∧ discordDmBlocked cfg author = true then
          .drop histories1 .dmSenderNotAllowed none none
        else
          match resolveDiscordSystemEvent m with
          | some sysText => .drop histories1 .systemEvent (some sysText) none
          | none =>
            match resolveMedia m cfg.mediaMaxBytes with
            | Except.error e => .drop histories1 .mediaFetchFailed none (some e)
            | Except.ok media =>
              let text := discordTurnText m media
              if text = "" then .drop histories1 .emptyContent none none
              else .proceed histories1 author media text

/-- The normalized value of `getReplyFromConfig`, before the handler turns
it into an array: null, a single payload, or a payload array. -/
inductive ReplyResult where
  | silent
  | one (p : ReplyPayload)
  | many (l : List ReplyPayload)
deriving DecidableEq

/-- Lines normalizing the generation result to an array. -/
def normalizeReplyResult : ReplyResult → List ReplyPayload
  | .silent => []
  | .one p => [p]
  | .many l => l

/-- The `sendBlockReply` guard: a block payload is delivered unless text,
media URL and media list are all absent or empty. -/
def blockAccepted (p : ReplyPayload) : Bool :=
  !((p.text.getD "") == "" && (p.mediaUrl.getD "") == "" && (p.mediaUrls.getD []).isEmpty)

/-- The observable behaviour of the black-box reply generator during one
turn: the payloads passed to `onBlockReply` in order, whether the generation
call threw, and its returned value when it did not. -/
structure GenerationOutcome where
  blocks : List ReplyPayload := []
  failed : Bool := false
  result : ReplyResult := .silent

/-- Everything a turn does that the rest of the system can observe: the
history map after the turn, the outbound sends in order (block deliveries
before final deliveries), whether reply generation was invoked, the history
entries injected as the context prefix of the agent turn, the enqueued
system-event text, the media-resolution error, and the session-route target
updated for direct messages. -/
structure TurnResult where
  histories : HistMap
  sends : List DiscordSend
  invokedGenerate : Bool
  contextHistory : List DiscordHistoryEntry
  systemEvent : Option String
  mediaError : Option String
  routeTo : Option String

/-- The part of the handler that runs after admission: context assembly,
reply-target resolution, session-route update for DMs, block deliveries
during generation, final deliveries, and the post-reply history clear. The
rendering of the agent prompt string (via `formatAgentEnvelope`, outside the
provided sources) is not modelled; the history entries it would inject are
exposed as `contextHistory` instead. -/
def discordTurnOutcome (cfg : DiscordMonitorConfig) (m : DiscordInboundMessage)
    (gen : GenerationOutcome) (h1 : HistMap) (author : DiscordAuthor)
    (_media : Option DiscordMediaInfo) (_text : String) : TurnResult :=
  let isDirectMessage := m.channelKind == .dm
  let isGuildMessage := m.guild.isSome
  let contextHistory :=
    if ¬isDirectMessage then
      let history := if 0 < cfg.historyLimit then h1 m.channelId else []
      if 0 < history.length then history.dropLast else []
    else []
  let shouldClearHistory := !isDirectMessage
  let replyTarget := if isDirectMessage then "user:" ++ author.id else "channel:" ++ m.channelId
  if replyTarget = "" then
    { histories := h1, sends := [], invokedGenerate := false,
      contextHistory := contextHistory, systemEvent := none, mediaError := none,
      routeTo := none }
  else
    let routeTo := if isDirectMessage then some ("user:" ++ author.id) else none
    let blockPayloads := gen.blocks.filter blockAccepted
    let blockSends := blockPayloads.foldl
      (fun acc p => acc ++ deliverReplies [p] replyTarget cfg.replyToMode cfg.textLimit) []
    let didSendFromBlocks := !blockPayloads.isEmpty
    if gen.failed then
      { histories := h1, sends := blockSends, invokedGenerate := true,
        contextHistory := contextHistory, systemEvent := none, mediaError := none,
        routeTo := routeTo }
    else
      let replies := normalizeReplyResult gen.result
      if replies.isEmpty then
        let h2 :=
          if isGuildMessage ∧ shouldClearHistory ∧ 0 < cfg.historyLimit ∧ didSendFromBlocks then
            updateMap h1 m.channelId []
          else h1
        { histories := h2, sends := blockSends, invokedGenerate := true,
          contextHistory := contextHistory, systemEvent := none, mediaError := none,
          routeTo := routeTo }
      else
        let finalSends := deliverReplies replies replyTarget cfg.replyToMode cfg.textLimit
        let h2 :=
          if isGuildMessage ∧ shouldClearHistory ∧ 0 < cfg.historyLimit then
            updateMap h1 m.channelId []
          else h1
        { histories := h2, sends := blockSends ++ finalSends, invokedGenerate := true,
          contextHistory := contextHistory, systemEvent := none, mediaError := none,
          routeTo := routeTo }

/-- The whole `Events.MessageCreate` handler for one inbound event:
admission, then the turn. -/
def handleMessageCreate (cfg : DiscordMonitorConfig) (histories : HistMap)
    (m : DiscordInboundMessage) (gen : GenerationOutcome) : TurnResult :=
  match discordAdmission cfg histories m with
  | .drop h _reason sys err =>
    { histories := h, sends := [], invokedGenerate := false, contextHistory := [],
      systemEvent := sys, mediaError := err, routeTo := none }
  | .proceed h author media text => discordTurnOutcome cfg m gen h author media text

/-! ## Lemmas about the allow-list builder -/

/-- Helper for stating non-degeneracy of a built allow list: a produced
value is the wildcard or carries at least one id or name. -/
def allowListNonDegenerate (o : Option DiscordAllowList) : Bool :=
  match o with
  | some l => l.allowAll || !l.ids.isEmpty || !l.names.isEmpty
  | none => true

/-- Helper for stating the wildcard property without binders: the raw list
builds to a non-null allow list that is the wildcard and permits `c`. -/
def allowListWildcardPermits (o : Option DiscordAllowList) (c : AllowCandidate) : Bool :=
  match o with
  | some l => l.allowAll && allowListMatches l c
  | none => false

/-- The trimmed reply reference of a payload id: none when blank. -/
def trimRef (rid : Option String) : Option String :=
  if jsTrim (rid.getD "") = "" then none else some (jsTrim (rid.getD ""))

/-- The last at most `n` elements of a list. -/
def lastN {α : Type} (n : Nat) (l : List α) : List α :=
  l.drop (l.length - n)

/-- Running a sequence of history appends (channel id, base text, entry)
from a starting map, with the guild flag set, at a fixed limit. -/
def runHistoryAppends (limit : Nat) (msgs : List (String × String × DiscordHistoryEntry))
    (start : HistMap) : HistMap :=
  msgs.foldl (fun h it => guildHistoryAppend h it.1 limit true it.2.1 it.2.2) start

/-- The entries of a run that target key `k` and carry non-empty text, in
arrival order. -/
def relevantEntries (k : String) (msgs : List (String × String × DiscordHistoryEntry)) :
    List DiscordHistoryEntry :=
  (msgs.filter (fun it => it.1 == k && it.2.1 != "")).map (fun it => it.2.2)

/-- Concrete configuration used by the witnesses. -/
def cfgW : DiscordMonitorConfig :=
  { botId := some "B", historyLimit := 5, textLimit := 100 }

/-- Concrete author used by the witnesses. -/
def authorW : DiscordAuthor := { id := "u9", username := "u", tag := "u#1" }

/-- Concrete guild used by the witnesses. -/
def guildW : DiscordGuildRef := { id := "G", name := "Guild" }

/-- A guild message that mentions the bot. -/
def msgMentionW : DiscordInboundMessage :=
  { author := some authorW, channelKind := .guildText, guild := some guildW,
    channelId := "C", channelName := some "general", content := some "hello bot",
    mentionedUserIds := ["B"], id := "M1", createdTimestamp := 1 }

/-- A guild message that does not mention the bot. -/
def msgNoMentionW : DiscordInboundMessage :=
  { author := some authorW, channelKind := .guildText, guild := some guildW,
    channelId := "C", channelName := some "general", content := some "no mention here",
    mentionedUserIds := [], id := "M2", createdTimestamp := 2 }

/-- An attachment whose download returns HTTP 404. -/
def attachment404W : DiscordAttachment :=
  { url := "http://x/a.png", contentType := some "image/png", fetchStatus := 404 }

/-- A guild message carrying an attachment whose download returns HTTP 404. -/
def msgMediaW : DiscordInboundMessage :=
  { author := some authorW, channelKind := .guildText, guild := some guildW,
    channelId := "C", channelName := some "general", content := none,
    attachment := some attachment404W,
    mentionedUserIds := ["B"], id := "M3", createdTimestamp := 3 }

/-- A direct message from the witness author. -/
def msgDmW : DiscordInboundMessage :=
  { author := some authorW, channelKind := .dm, guild := none,
    channelId := "D", content := some "hi", id := "M5", createdTimestamp := 5 }

/-- A generation outcome returning a single text reply. -/
def genOkW : GenerationOutcome := { result := .many [{ text := some "ok" }] }

/-- A generation outcome that throws after one delivered block reply. -/
def genFailW : GenerationOutcome :=
  { blocks := [{ text := some "hi" }], failed := true, result := .silent }

/-- A DM configuration allowing only the sender id 12345. -/
def cfgDmW : DiscordMonitorConfig :=
  { botId := some "B", historyLimit := 5, textLimit := 100,
    allowFrom := some ["12345"] }

/-- A configuration with `historyLimit = 1`. -/
def cfgLimit1W : DiscordMonitorConfig :=
  { botId := some "B", historyLimit := 1, textLimit := 100 }

/-- A later guild message that mentions the bot. -/
def msgAskW : DiscordInboundMessage :=
  { author := some authorW, channelKind := .guildText, guild := some guildW,
    channelId := "C", channelName := some "general", content := some "answer me",
    mentionedUserIds := ["B"], id := "M6", createdTimestamp := 6 }

theorem allowListStep_allowAll_mono (markers : List String) (acc : DiscordAllowList)
    (e : String) (h : acc.allowAll = true) :
    (allowListStep markers acc e).allowAll = true := by
  unfold allowListStep
  dsimp only
  repeat' split <;> try simp_all

theorem foldl_allowListStep_allowAll_mono (markers : List String) (raw : List String)
    (acc : DiscordAllowList) (h : acc.allowAll = true) :
    (raw.foldl (allowListStep markers) acc).allowAll = true := by
  induction raw generalizing acc with
  | nil => simpa using h
  | cons r rest ih =>
    simp only [List.foldl_cons]
    exact ih _ (allowListStep_allowAll_mono markers acc r h)

theorem foldl_allowListStep_star (markers : List String) (raw : List String)
    (acc : DiscordAllowList) (hStar : "*" ∈ raw) :
    (raw.foldl (allowListStep markers) acc).allowAll = true := by
  induction raw generalizing acc with
  | nil => cases hStar
  | cons r rest ih =>
    simp only [List.foldl_cons]
    rcases List.mem_cons.mp hStar with h | h
    · subst h
      have hstep : (allowListStep markers acc "*").allowAll = true := by
        unfold allowListStep
        dsimp only
        rw [show jsTrim "*" = "*" from by decide]
        rw [if_neg (by decide), if_pos rfl]
      exact foldl_allowListStep_allowAll_mono markers rest _ hstep
    · exact ih _ h

theorem allowListStep_of_blank (markers : List String) (acc : DiscordAllowList)
    (e : String) (h : jsTrim e = "") : allowListStep markers acc e = acc := by
  unfold allowListStep
  simp [h]

theorem foldl_allowListStep_filter_blank (markers : List String) (raw : List String)
    (acc : DiscordAllowList) :
    (raw.filter (fun e => jsTrim e != "")).foldl (allowListStep markers) acc
      = raw.foldl (allowListStep markers) acc := by
  induction raw generalizing acc with
  | nil => rfl
  | cons r rest ih =>
    by_cases h : jsTrim r = ""
    · have hb : (jsTrim r != "") = false := by simp [h]
      simp only [List.filter_cons, hb, Bool.false_eq_true, if_false, List.foldl_cons]
      rw [ih, allowListStep_of_blank markers acc r h]
    · have hb : (jsTrim r != "") = true := by simpa using h
      simp only [List.filter_cons, hb, if_true, List.foldl_cons]
      exact ih _

/-- Claim C4: every raw allow-list containing the entry `"*"` builds to an
`AllowList` with `allowAll = true`, and `allowListMatches` on that list
accepts every candidate, including the empty candidate. -/
theorem c4_wildcard_permits_any (raw markers : List String) (c : AllowCandidate)
    (hStar : "*" ∈ raw) :
    allowListWildcardPermits (normalizeDiscordAllowList raw markers) c = true := by
  have hNonempty : raw.isEmpty = false := by
    cases raw with
    | nil => cases hStar
    | cons a l => rfl
  have hAll := foldl_allowListStep_star markers raw
    { allowAll := false, ids := [], names := [] } hStar
  unfold normalizeDiscordAllowList
  simp only [hNonempty, Bool.false_eq_true, if_false]
  rw [if_neg (by simp [hAll])]
  unfold allowListWildcardPermits allowListMatches
  simp [hAll]

/-- Witness for C4 at the concrete input `["*"]` with the empty candidate. -/
theorem c4_wildcard_permits_any_witness :
    ("*" ∈ ["*"]) ∧
      allowListWildcardPermits (normalizeDiscordAllowList ["*"] []) {} = true :=
  ⟨by decide, c4_wildcard_permits_any ["*"] [] {} (by decide)⟩

/-- Claim C5 (amended): building ignores entries that trim to nothing
without affecting the others, an empty raw list builds to null, and a built
(non-null) `AllowList` is never degenerate (`allowAll = false` with both
sets empty). The original parenthetical — a non-empty raw list yields at
least one id or name unless every entry was blank — is refuted by
`c5_nonblank_entry_counterexample`: a non-blank entry can still normalize to
nothing. -/
theorem c5_allow_list_builder (raw markers : List String) :
    normalizeDiscordAllowList (raw.filter (fun e => jsTrim e != "")) markers
        = normalizeDiscordAllowList raw markers
    ∧ normalizeDiscordAllowList [] markers = none
    ∧ allowListNonDegenerate (normalizeDiscordAllowList raw markers) = true := by
  refine ⟨?_, rfl, ?_⟩
  · by_cases hraw : raw.isEmpty
    · rw [List.isEmpty_iff] at hraw
      subst hraw
      rfl
    · by_cases hf : (raw.filter (fun e => jsTrim e != "")).isEmpty
      · have hres : raw.foldl (allowListStep markers)
            { allowAll := false, ids := [], names := [] }
            = { allowAll := false, ids := [], names := [] } := by
          have hfold := foldl_allowListStep_filter_blank markers raw
            { allowAll := false, ids := [], names := [] }
          rw [List.isEmpty_iff] at hf
          rw [hf] at hfold
          simpa using hfold.symm
        rw [List.isEmpty_iff] at hf
        rw [hf]
        unfold normalizeDiscordAllowList
        simp [hraw, hres]
      · unfold normalizeDiscordAllowList
        rw [foldl_allowListStep_filter_blank]
        simp [hraw, hf]
  · unfold normalizeDiscordAllowList
    by_cases hraw : raw.isEmpty
    · simp [hraw, allowListNonDegenerate]
    · simp only [hraw, Bool.false_eq_true, if_false]
      split
      · simp [allowListNonDegenerate]
      · rename_i hcond
        simp only [not_and_or, not_not] at hcond
        rcases hcond with h | h | h <;> simp [allowListNonDegenerate, h]

/-- Counterexample for the original C5 parenthetical: `"@"` is a non-blank
entry, yet building from the non-empty raw list `["@"]` yields no id and no
name at all (the builder returns null). -/
theorem c5_nonblank_entry_counterexample :
    jsTrim "@" ≠ "" ∧ normalizeDiscordAllowList ["@"] ["discord:", "user:"] = none := by
  decide

/-! ## Lemmas about reply delivery and threading -/

theorem resolveReplyTarget_off (rid : Option String) (hr : Bool) :
    resolveDiscordReplyTarget .off rid hr = none := rfl

theorem resolveReplyTarget_all (rid : Option String) (hr : Bool) :
    resolveDiscordReplyTarget .all rid hr = trimRef rid := by
  unfold resolveDiscordReplyTarget trimRef
  simp

theorem resolveReplyTarget_first_replied (rid : Option String) :
    resolveDiscordReplyTarget .first rid true = none := by
  unfold resolveDiscordReplyTarget
  split <;> simp

theorem resolveReplyTarget_first_fresh (rid : Option String)
    (h : jsTrim (rid.getD "") ≠ "") :
    resolveDiscordReplyTarget .first rid false = some (jsTrim (rid.getD "")) := by
  unfold resolveDiscordReplyTarget
  simp [h]

theorem sendTextChunks_off_unthreaded (target : String) (rid : Option String)
    (chunks : List String) (hr : Bool) :
    ∀ s ∈ (sendTextChunks target .off rid chunks hr).1, s.replyTo = none := by
  induction chunks generalizing hr with
  | nil => intro s hs; cases hs
  | cons c rest ih =>
    intro s hs
    simp only [sendTextChunks, resolveReplyTarget_off, List.mem_cons] at hs
    rcases hs with h | h
    · rw [h]
    · exact ih _ s h

theorem sendMediaItems_off_unthreaded (target : String) (rid : Option String)
    (text : String) (media : List String) (first hr : Bool) :
    ∀ s ∈ (sendMediaItems target .off rid text media first hr).1, s.replyTo = none := by
  induction media generalizing first hr with
  | nil => intro s hs; cases hs
  | cons u rest ih =>
    intro s hs
    simp only [sendMediaItems, resolveReplyTarget_off, List.mem_cons] at hs
    rcases hs with h | h
    · rw [h]
    · exact ih _ _ s h

theorem deliverPayload_off_unthreaded (target : String) (climit : Nat) (p : ReplyPayload)
    (hr : Bool) :
    ∀ s ∈ (deliverPayload target .off climit p hr).1, s.replyTo = none := by
  intro s hs
  unfold deliverPayload at hs
  dsimp only at hs
  split at hs
  · simp at hs
  · split at hs
    · exact sendTextChunks_off_unthreaded _ _ _ _ s hs
    · exact sendMediaItems_off_unthreaded _ _ _ _ _ _ s hs

theorem deliverPayloads_off_unthreaded (target : String) (climit : Nat)
    (replies : List ReplyPayload) (hr : Bool) :
    ∀ s ∈ (deliverPayloads target .off climit replies hr).1, s.replyTo = none := by
  induction replies generalizing hr with
  | nil => intro s hs; cases hs
  | cons p rest ih =>
    intro s hs
    simp only [deliverPayloads, List.mem_append] at hs
    rcases hs with h | h
    · exact deliverPayload_off_unthreaded target climit p hr s h
    · exact ih _ s h

theorem sendTextChunks_all_threaded (target : String) (rid : Option String)
    (chunks : List String) (hr : Bool) :
    ∀ s ∈ (sendTextChunks target .all rid chunks hr).1, s.replyTo = trimRef rid := by
  induction chunks generalizing hr with
  | nil => intro s hs; cases hs
  | cons c rest ih =>
    intro s hs
    simp only [sendTextChunks, resolveReplyTarget_all, List.mem_cons] at hs
    rcases hs with h | h
    · rw [h]
    · exact ih _ s h

theorem sendMediaItems_all_threaded (target : String) (rid : Option String)
    (text : String) (media : List String) (first hr : Bool) :
    ∀ s ∈ (sendMediaItems target .all rid text media first hr).1, s.replyTo = trimRef rid := by
  induction media generalizing first hr with
  | nil => intro s hs; cases hs
  | cons u rest ih =>
    intro s hs
    simp only [sendMediaItems, resolveReplyTarget_all, List.mem_cons] at hs
    rcases hs with h | h
    · rw [h]
    · exact ih _ _ s h

theorem deliverPayload_all_threaded (target : String) (climit : Nat) (p : ReplyPayload)
    (hr : Bool) :
    ∀ s ∈ (deliverPayload target .all climit p hr).1, s.replyTo = trimRef p.replyToId := by
  intro s hs
  unfold deliverPayload at hs
  dsimp only at hs
  split at hs
  · simp at hs
  · split at hs
    · exact sendTextChunks_all_threaded _ _ _ _ s hs
    · exact sendMediaItems_all_threaded _ _ _ _ _ _ s hs

theorem sendTextChunks_all_sends_hr (target : String) (rid : Option String)
    (chunks : List String) (hr hr2 : Bool) :
    (sendTextChunks target .all rid chunks hr).1 = (sendTextChunks target .all rid chunks hr2).1 := by
  induction chunks generalizing hr hr2 with
  | nil => rfl
  | cons c rest ih =>
    simp only [sendTextChunks, resolveReplyTarget_all]
    rw [ih]

theorem sendMediaItems_all_sends_hr (target : String) (rid : Option String)
    (text : String) (media : List String) (first hr hr2 : Bool) :
    (sendMediaItems target .all rid text media first hr).1
      = (sendMediaItems target .all rid text media first hr2).1 := by
  induction media generalizing first hr hr2 with
  | nil => rfl
  | cons u rest ih =>
    simp only [sendMediaItems, resolveReplyTarget_all]
    rw [ih]

theorem deliverPayload_all_sends_hr (target : String) (climit : Nat) (p : ReplyPayload)
    (hr : Bool) :
    (deliverPayload target .all climit p hr).1 = (deliverPayload target .all climit p false).1 := by
  unfold deliverPayload
  dsimp only
  split
  · rfl
  · split
    · exact sendTextChunks_all_sends_hr _ _ _ _ _
    · exact sendMediaItems_all_sends_hr _ _ _ _ _ _ _

theorem deliverPayloads_all_flatten (target : String) (climit : Nat)
    (replies : List ReplyPayload) (hr : Bool) :
    (deliverPayloads target .all climit replies hr).1
      = (replies.map (fun p => (deliverPayload target .all climit p false).1)).flatten := by
  induction replies generalizing hr with
  | nil => rfl
  | cons p rest ih =>
    simp only [deliverPayloads, List.map_cons, List.flatten_cons]
    rw [deliverPayload_all_sends_hr, ih]

theorem chunkText_ne_nil (s : String) (limit : Nat) (h : s ≠ "") :
    chunkText s limit ≠ [] := by
  have hl : s.toList ≠ [] := by
    intro hnil
    exact h (String.ext (by simpa [String.toList] using hnil))
  unfold chunkText
  cases hls : s.toList with
  | nil => exact absurd hls hl
  | cons c cs => simp [chunkChars]

theorem sendTextChunks_first_replied (target : String) (rid : Option String)
    (chunks : List String) :
    (∀ s ∈ (sendTextChunks target .first rid chunks true).1, s.replyTo = none)
    ∧ (sendTextChunks target .first rid chunks true).2 = true := by
  induction chunks with
  | nil => exact ⟨fun s hs => (by cases hs), rfl⟩
  | cons c rest ih =>
    simp only [sendTextChunks, resolveReplyTarget_first_replied, Option.isSome_none,
      Bool.false_eq_true, false_and, if_false, ite_self]
    refine ⟨?_, ih.2⟩
    intro s hs
    rcases List.mem_cons.mp hs with h | h
    · rw [h]
    · exact ih.1 s h

theorem sendMediaItems_first_replied (target : String) (rid : Option String)
    (text : String) (media : List String) (first : Bool) :
    (∀ s ∈ (sendMediaItems target .first rid text media first true).1, s.replyTo = none)
    ∧ (sendMediaItems target .first rid text media first true).2 = true := by
  induction media generalizing first with
  | nil => exact ⟨fun s hs => (by cases hs), rfl⟩
  | cons u rest ih =>
    simp only [sendMediaItems, resolveReplyTarget_first_replied, Option.isSome_none,
      Bool.false_eq_true, false_and, if_false, ite_self]
    refine ⟨?_, (ih false).2⟩
    intro s hs
    rcases List.mem_cons.mp hs with h | h
    · rw [h]
    · exact (ih false).1 s h

theorem deliverPayload_first_replied (target : String) (climit : Nat) (p : ReplyPayload) :
    (∀ s ∈ (deliverPayload target .first climit p true).1, s.replyTo = none)
    ∧ (deliverPayload target .first climit p true).2 = true := by
  unfold deliverPayload
  dsimp only
  split
  · exact ⟨fun s hs => (by cases hs), rfl⟩
  · split
    · exact sendTextChunks_first_replied _ _ _
    · exact sendMediaItems_first_replied _ _ _ _ _

theorem deliverPayloads_first_replied (target : String) (climit : Nat)
    (replies : List ReplyPayload) :
    (∀ s ∈ (deliverPayloads target .first climit replies true).1, s.replyTo = none)
    ∧ (deliverPayloads target .first climit replies true).2 = true := by
  induction replies with
  | nil => exact ⟨fun s hs => (by cases hs), rfl⟩
  | cons p rest ih =>
    simp only [deliverPayloads]
    have hp := deliverPayload_first_replied target climit p
    rw [hp.2]
    refine ⟨?_, ih.2⟩
    intro s hs
    rcases List.mem_append.mp hs with h | h
    · exact hp.1 s h
    · exact ih.1 s h

theorem sendTextChunks_first_fresh_shape (target : String) (rid : Option String)
    (c : String) (rest : List String) (hne : jsTrim (rid.getD "") ≠ "") :
    sendTextChunks target .first rid (c :: rest) false
      = ({ target := target, content := c, mediaUrl := none,
           replyTo := some (jsTrim (rid.getD "")) }
            :: (sendTextChunks target .first rid rest true).1,
         (sendTextChunks target .first rid rest true).2) := by
  simp [sendTextChunks, resolveReplyTarget_first_fresh rid hne]

theorem sendMediaItems_first_fresh_shape (target : String) (rid : Option String)
    (text : String) (u : String) (us : List String) (hne : jsTrim (rid.getD "") ≠ "") :
    sendMediaItems target .first rid text (u :: us) true false
      = ({ target := target, content := text, mediaUrl := some u,
           replyTo := some (jsTrim (rid.getD "")) }
            :: (sendMediaItems target .first rid text us false true).1,
         (sendMediaItems target .first rid text us false true).2) := by
  simp [sendMediaItems, resolveReplyTarget_first_fresh rid hne]

theorem deliverPayload_first_fresh (target : String) (climit : Nat) (p : ReplyPayload)
    (hne : jsTrim (p.replyToId.getD "") ≠ "") :
    ((deliverPayload target .first climit p false).1 = []
        ∧ (deliverPayload target .first climit p false).2 = false)
    ∨ (∃ s tail, (deliverPayload target .first climit p false).1 = s :: tail
        ∧ s.replyTo.isSome = true
        ∧ (∀ x ∈ tail, x.replyTo = none)
        ∧ (deliverPayload target .first climit p false).2 = true) := by
  unfold deliverPayload
  dsimp only
  split
  · exact Or.inl ⟨rfl, rfl⟩
  · rename_i hskip
    split
    · rename_i hmedia
      have htext : p.text.getD "" ≠ "" := fun hte => hskip ⟨hte, hmedia⟩
      right
      cases hch : chunkText (p.text.getD "") climit with
      | nil => exact absurd hch (chunkText_ne_nil _ _ htext)
      | cons c rest =>
        rw [sendTextChunks_first_fresh_shape target p.replyToId c rest hne]
        have hrest := sendTextChunks_first_replied target p.replyToId rest
        exact ⟨_, _, rfl, rfl, hrest.1, hrest.2⟩
    · rename_i hmedia
      right
      cases hml : payloadMediaList p with
      | nil => exact absurd (by simp [hml]) hmedia
      | cons u us =>
        rw [sendMediaItems_first_fresh_shape target p.replyToId (p.text.getD "") u us hne]
        have hrest := sendMediaItems_first_replied target p.replyToId (p.text.getD "") us false
        exact ⟨_, _, rfl, rfl, hrest.1, hrest.2⟩

theorem deliverPayloads_first_fresh (target : String) (climit : Nat)
    (replies : List ReplyPayload)
    (hAll : ∀ p ∈ replies, jsTrim (p.replyToId.getD "") ≠ "") :
    ((deliverPayloads target .first climit replies false).1 = [])
    ∨ (∃ s tail, (deliverPayloads target .first climit replies false).1 = s :: tail
        ∧ s.replyTo.isSome = true
        ∧ (∀ x ∈ tail, x.replyTo = none)) := by
  induction replies with
  | nil => exact Or.inl rfl
  | cons p rest ih =>
    simp only [deliverPayloads]
    rcases deliverPayload_first_fresh target climit p
        (hAll p (List.mem_cons_self p rest)) with ⟨h1, h2⟩ | ⟨s, tail, h1, hsome, htail, h2⟩
    · rw [h1, h2]
      rcases ih (fun q hq => hAll q (List.mem_cons_of_mem p hq)) with h | ⟨s, tail, h, hsome, htail⟩
      · exact Or.inl (by simpa using h)
      · exact Or.inr ⟨s, tail, by simpa using h, hsome, htail⟩
    · rw [h1, h2]
      have hnext := deliverPayloads_first_replied target climit rest
      refine Or.inr ⟨s, tail ++ (deliverPayloads target .first climit rest true).1,
        by simp, hsome, ?_⟩
      intro x hx
      rcases List.mem_append.mp hx with h | h
      · exact htail x h
      · exact hnext.1 x h

/-- Claim C1: reply threading for delivered payloads. Mode `off` never sets
a reply reference; mode `all` threads every send to the (trimmed) id of its
payload — the delivery decomposes per payload and each send of a payload
carries exactly the trimmed reference of that payload; in the default per-turn
mode (`first`), when every payload of the turn carries a non-blank
`replyToId`, exactly the first outbound send of the turn is threaded and all
subsequent sends are unthreaded. -/
theorem c1_reply_threading (target : String) (textLimit : Nat)
    (replies : List ReplyPayload)
    (hAll : ∀ p ∈ replies, jsTrim (p.replyToId.getD "") ≠ "") :
    (∀ s ∈ deliverReplies replies target .off textLimit, s.replyTo = none)
    ∧ (deliverReplies replies target .all textLimit
        = (replies.map (fun p =>
            (deliverPayload target .all (min textLimit 2000) p false).1)).flatten
       ∧ ∀ (p : ReplyPayload) (hr : Bool),
           ∀ s ∈ (deliverPayload target .all (min textLimit 2000) p hr).1,
             s.replyTo = trimRef p.replyToId)
    ∧ (∀ s rest, deliverReplies replies target .first textLimit = s :: rest →
        s.replyTo.isSome = true ∧ ∀ s2 ∈ rest, s2.replyTo = none) := by
  refine ⟨?_, ⟨?_, ?_⟩, ?_⟩
  · exact deliverPayloads_off_unthreaded target (min textLimit 2000) replies false
  · exact deliverPayloads_all_flatten target (min textLimit 2000) replies false
  · exact fun p hr => deliverPayload_all_threaded target (min textLimit 2000) p hr
  · intro s rest heq
    rcases deliverPayloads_first_fresh target (min textLimit 2000) replies hAll with h | h
    · rw [show deliverReplies replies target .first textLimit
          = (deliverPayloads target .first (min textLimit 2000) replies false).1 from rfl,
        h] at heq
      cases heq
    · rcases h with ⟨s2, tail2, h1, hsome, htail⟩
      rw [show deliverReplies replies target .first textLimit
          = (deliverPayloads target .first (min textLimit 2000) replies false).1 from rfl,
        h1] at heq
      cases heq
      exact ⟨hsome, htail⟩

/-- Witness for C1: three payloads of ten characters each against chunk
limit 5 produce six sends; with mode `first` exactly the very first is
threaded. -/
theorem c1_reply_threading_witness :
    (∀ p ∈ [({ text := some "aaaaabbbbb", replyToId := some "111" } : ReplyPayload),
            { text := some "cccccddddd", replyToId := some "111" },
            { text := some "eeeeefffff", replyToId := some "111" }],
        jsTrim (p.replyToId.getD "") ≠ "")
    ∧ ((∀ s ∈ deliverReplies
          [({ text := some "aaaaabbbbb", replyToId := some "111" } : ReplyPayload),
           { text := some "cccccddddd", replyToId := some "111" },
           { text := some "eeeeefffff", replyToId := some "111" }] "chan" .off 5,
          s.replyTo = none)
       ∧ (deliverReplies
            [({ text := some "aaaaabbbbb", replyToId := some "111" } : ReplyPayload),
             { text := some "cccccddddd", replyToId := some "111" },
             { text := some "eeeeefffff", replyToId := some "111" }] "chan" .all 5
          = ([({ text := some "aaaaabbbbb", replyToId := some "111" } : ReplyPayload),
              { text := some "cccccddddd", replyToId := some "111" },
              { text := some "eeeeefffff", replyToId := some "111" }].map (fun p =>
                (deliverPayload "chan" .all (min 5 2000) p false).1)).flatten
          ∧ ∀ (p : ReplyPayload) (hr : Bool),
              ∀ s ∈ (deliverPayload "chan" .all (min 5 2000) p hr).1,
                s.replyTo = trimRef p.replyToId)
       ∧ (∀ s rest, deliverReplies
            [({ text := some "aaaaabbbbb", replyToId := some "111" } : ReplyPayload),
             { text := some "cccccddddd", replyToId := some "111" },
             { text := some "eeeeefffff", replyToId := some "111" }] "chan" .first 5
              = s :: rest →
            s.replyTo.isSome = true ∧ ∀ s2 ∈ rest, s2.replyTo = none)) :=
  ⟨by decide, c1_reply_threading "chan" 5
    [{ text := some "aaaaabbbbb", replyToId := some "111" },
     { text := some "cccccddddd", replyToId := some "111" },
     { text := some "eeeeefffff", replyToId := some "111" }] (by decide)⟩

theorem sendMediaItems_contents_false (target : String) (mode : ReplyToMode)
    (rid : Option String) (text : String) (media : List String) (hr : Bool) :
    ((sendMediaItems target mode rid text media false hr).1.map (fun s => s.content)
        = List.replicate media.length "")
    ∧ ((sendMediaItems target mode rid text media false hr).1.map (fun s => s.mediaUrl)
        = media.map some) := by
  induction media generalizing hr with
  | nil => exact ⟨rfl, rfl⟩
  | cons u us ih =>
    constructor
    · simp only [sendMediaItems, List.map_cons, List.length_cons, List.replicate_succ]
      rw [(ih _).1]
      try simp
    · simp only [sendMediaItems, List.map_cons]
      rw [(ih _).2]
      try simp

theorem sendMediaItems_contents_true (target : String) (mode : ReplyToMode)
    (rid : Option String) (text u : String) (us : List String) (hr : Bool) :
    ((sendMediaItems target mode rid text (u :: us) true hr).1.map (fun s => s.content)
        = text :: List.replicate us.length "")
    ∧ ((sendMediaItems target mode rid text (u :: us) true hr).1.map (fun s => s.mediaUrl)
        = (u :: us).map some) := by
  constructor
  · simp only [sendMediaItems, List.map_cons]
    rw [(sendMediaItems_contents_false target mode rid text us _).1]
    try simp
  · simp only [sendMediaItems, List.map_cons]
    rw [(sendMediaItems_contents_false target mode rid text us _).2]
    try simp

/-- Claim C9: a delivered payload with media produces exactly one outbound
send per media URL, the first of which carries the payload text as its
caption while every later one carries an empty caption; in particular the
two-payload scenario text-then-media produces a text send for the text and a
media send with an empty caption. -/
theorem c9_media_caption_sends (target : String) (mode : ReplyToMode) (climit : Nat)
    (p : ReplyPayload) (hr : Bool) (hMedia : payloadMediaList p ≠ []) :
    ((deliverPayload target mode climit p hr).1.map (fun s => s.mediaUrl)
        = (payloadMediaList p).map some)
    ∧ ((deliverPayload target mode climit p hr).1.map (fun s => s.content)
        = (p.text.getD "") :: List.replicate ((payloadMediaList p).length - 1) "")
    ∧ deliverReplies
        [{ text := some "part1" }, { text := some "", mediaUrl := some "http://x/img.jpg" }]
        "chan" .off 2000
      = [{ target := "chan", content := "part1" },
         { target := "chan", content := "", mediaUrl := some "http://x/img.jpg" }] := by
  refine ⟨?_, ?_, by decide⟩
  · unfold deliverPayload
    dsimp only
    rw [if_neg (by simp [hMedia]), if_neg (by simp [hMedia])]
    cases hml : payloadMediaList p with
    | nil => exact absurd hml hMedia
    | cons u us =>
      rw [(sendMediaItems_contents_true target mode p.replyToId (p.text.getD "") u us hr).2]
  · unfold deliverPayload
    dsimp only
    rw [if_neg (by simp [hMedia]), if_neg (by simp [hMedia])]
    cases hml : payloadMediaList p with
    | nil => exact absurd hml hMedia
    | cons u us =>
      rw [(sendMediaItems_contents_true target mode p.replyToId (p.text.getD "") u us hr).1]
      simp

/-- Witness for C9 at a two-URL payload with a caption. -/
theorem c9_media_caption_sends_witness :
    (payloadMediaList { text := some "cap", mediaUrls := some ["u1", "u2"] } ≠ [])
    ∧ (((deliverPayload "chan" .off 10
          { text := some "cap", mediaUrls := some ["u1", "u2"] } false).1.map
            (fun s => s.mediaUrl)
        = (payloadMediaList { text := some "cap", mediaUrls := some ["u1", "u2"] }).map some)
      ∧ (((deliverPayload "chan" .off 10
            { text := some "cap", mediaUrls := some ["u1", "u2"] } false).1.map
              (fun s => s.content))
          = (({ text := some "cap", mediaUrls := some ["u1", "u2"] } :
                ReplyPayload).text.getD "")
              :: List.replicate
                ((payloadMediaList { text := some "cap", mediaUrls := some ["u1", "u2"] }).length
                  - 1) "")
      ∧ deliverReplies
          [{ text := some "part1" }, { text := some "", mediaUrl := some "http://x/img.jpg" }]
          "chan" .off 2000
        = [{ target := "chan", content := "part1" },
           { target := "chan", content := "", mediaUrl := some "http://x/img.jpg" }]) :=
  ⟨by decide, c9_media_caption_sends "chan" .off 10
    { text := some "cap", mediaUrls := some ["u1", "u2"] } false (by decide)⟩

/-! ## Lemmas about the bounded history store -/

theorem evictOldest_eq_drop {α : Type} (l : List α) (limit : Nat) :
    evictOldest l limit = l.drop (l.length - limit) := by
  induction l with
  | nil => simp [evictOldest]
  | cons x rest ih =>
    unfold evictOldest
    by_cases h : rest.length + 1 > limit
    · rw [if_pos h, ih]
      have harith : rest.length + 1 - limit = (rest.length - limit) + 1 := by omega
      rw [List.length_cons, harith, List.drop_succ_cons]
    · rw [if_neg h]
      have harith : rest.length + 1 - limit = 0 := by omega
      rw [List.length_cons, harith, List.drop_zero]

theorem lastN_length {α : Type} (n : Nat) (l : List α) :
    (lastN n l).length = min n l.length := by
  simp only [lastN, List.length_drop]
  omega

theorem lastN_of_le {α : Type} {n : Nat} {l : List α} (h : l.length ≤ n) :
    lastN n l = l := by
  simp [lastN, Nat.sub_eq_zero_of_le h]

theorem lastN_idem {α : Type} (n : Nat) (l : List α) :
    lastN n (lastN n l) = lastN n l := by
  apply lastN_of_le
  rw [lastN_length]
  omega

theorem lastN_append {α : Type} (n : Nat) (a b : List α) :
    lastN n (lastN n a ++ b) = lastN n (a ++ b) := by
  unfold lastN
  simp only [List.length_append, List.length_drop]
  rw [List.drop_append_eq_append_drop, List.drop_append_eq_append_drop, List.drop_drop,
    List.length_drop]
  congr 1
  · congr 1
    omega
  · congr 1
    omega

theorem evictOldest_eq_lastN {α : Type} (l : List α) (limit : Nat) :
    evictOldest l limit = lastN limit l :=
  evictOldest_eq_drop l limit

theorem guildHistoryAppend_pos (h : HistMap) (ch : String) (limit : Nat) (bt : String)
    (e : DiscordHistoryEntry) (hlim : 0 < limit) (hbt : bt ≠ "") :
    guildHistoryAppend h ch limit true bt e
      = updateMap h ch (evictOldest (h ch ++ [e]) limit) := by
  simp [guildHistoryAppend, hlim, hbt]

theorem guildHistoryAppend_noop_text (h : HistMap) (ch : String) (limit : Nat)
    (e : DiscordHistoryEntry) : guildHistoryAppend h ch limit true "" e = h := by
  simp [guildHistoryAppend]

theorem guildHistoryAppend_noop_limit (h : HistMap) (ch : String) (bt : String)
    (e : DiscordHistoryEntry) : guildHistoryAppend h ch 0 true bt e = h := by
  simp [guildHistoryAppend]

theorem runHistoryAppends_cons (limit : Nat) (it : String × String × DiscordHistoryEntry)
    (rest : List (String × String × DiscordHistoryEntry)) (start : HistMap) :
    runHistoryAppends limit (it :: rest) start
      = runHistoryAppends limit rest (guildHistoryAppend start it.1 limit true it.2.1 it.2.2) :=
  rfl

theorem runHistoryAppends_char (limit : Nat)
    (msgs : List (String × String × DiscordHistoryEntry)) (start : HistMap)
    (hstart : ∀ key, lastN limit (start key) = start key) (k : String) :
    runHistoryAppends limit msgs start k = lastN limit (start k ++ relevantEntries k msgs) := by
  induction msgs generalizing start with
  | nil =>
    simp only [runHistoryAppends, List.foldl_nil, relevantEntries, List.filter_nil,
      List.map_nil, List.append_nil]
    exact (hstart k).symm
  | cons it rest ih =>
    obtain ⟨ch, bt, e⟩ := it
    rw [runHistoryAppends_cons]
    by_cases hbt : bt = ""
    · subst hbt
      rw [guildHistoryAppend_noop_text]
      have hrel : relevantEntries k ((ch, "", e) :: rest) = relevantEntries k rest := by
        simp [relevantEntries]
      rw [hrel, ih start hstart]
    · by_cases hlim : 0 < limit
      · rw [show guildHistoryAppend start (ch, bt, e).1 limit true (ch, bt, e).2.1
            (ch, bt, e).2.2 = updateMap start ch (evictOldest (start ch ++ [e]) limit) from
          guildHistoryAppend_pos start ch limit bt e hlim hbt]
        have hstart2 : ∀ key,
            lastN limit ((updateMap start ch (evictOldest (start ch ++ [e]) limit)) key)
              = (updateMap start ch (evictOldest (start ch ++ [e]) limit)) key := by
          intro key
          unfold updateMap
          by_cases hk : key = ch
          · rw [if_pos hk, evictOldest_eq_lastN, lastN_idem]
          · rw [if_neg hk]
            exact hstart key
        rw [ih _ hstart2]
        by_cases hk : ch = k
        · subst hk
          have hup : (updateMap start ch (evictOldest (start ch ++ [e]) limit)) ch
              = lastN limit (start ch ++ [e]) := by
            rw [updateMap, if_pos rfl, evictOldest_eq_lastN]
          rw [hup]
          have hrel : relevantEntries ch ((ch, bt, e) :: rest)
              = e :: relevantEntries ch rest := by
            simp [relevantEntries, hbt]
          rw [hrel, lastN_append]
          congr 1
          simp
        · have hup : (updateMap start ch (evictOldest (start ch ++ [e]) limit)) k
              = start k := by
            rw [updateMap, if_neg (fun hkc => hk hkc.symm)]
          rw [hup]
          have hne : (ch == k) = false := by
            simp [hk]
          have hrel : relevantEntries k ((ch, bt, e) :: rest) = relevantEntries k rest := by
            simp [relevantEntries, hne]
          rw [hrel]
      · have h0 : limit = 0 := by omega
        subst h0
        rw [show guildHistoryAppend start (ch, bt, e).1 0 true (ch, bt, e).2.1
            (ch, bt, e).2.2 = start from guildHistoryAppend_noop_limit start ch bt e]
        rw [ih start hstart]
        simp [lastN]

/-- Claim C2: for every conversation key and every sequence of appends from
an empty store, the stored history is exactly the suffix of the relevant
appended entries that fits the limit (so eviction is oldest-first and
insertion order is preserved), the length never exceeds `historyLimit`, and
with `historyLimit = 0` nothing is ever stored. -/
theorem c2_history_bounded_fifo (limit : Nat)
    (msgs : List (String × String × DiscordHistoryEntry)) (k : String) :
    runHistoryAppends limit msgs (fun _ => []) k
        = (relevantEntries k msgs).drop ((relevantEntries k msgs).length - limit)
    ∧ (runHistoryAppends limit msgs (fun _ => []) k).length ≤ limit
    ∧ runHistoryAppends 0 msgs (fun _ => []) k = [] := by
  have hchar := runHistoryAppends_char limit msgs (fun _ => []) (fun key => by simp [lastN]) k
  have hchar0 := runHistoryAppends_char 0 msgs (fun _ => []) (fun key => by simp [lastN]) k
  simp only [List.nil_append] at hchar hchar0
  refine ⟨hchar, ?_, ?_⟩
  · rw [hchar, lastN_length]
    omega
  · rw [hchar0]
    simp [lastN]

/-! ## Lemmas about the MessageCreate handler -/

theorem userTarget_ne_empty (s : String) : ¬("user:" ++ s = "") := by
  intro h
  have hd := congrArg String.data h
  rw [String.data_append] at hd
  exact absurd (List.append_eq_nil.mp hd).1 (by decide)

theorem channelTarget_ne_empty (s : String) : ¬("channel:" ++ s = "") := by
  intro h
  have hd := congrArg String.data h
  rw [String.data_append] at hd
  exact absurd (List.append_eq_nil.mp hd).1 (by decide)

theorem discordAdmission_proceeds_guild
    (cfg : DiscordMonitorConfig) (h : HistMap) (m : DiscordInboundMessage)
    (a : DiscordAuthor) (g : DiscordGuildRef) (med : Option DiscordMediaInfo)
    (hA : m.author = some a) (hBot : a.isBot = false)
    (hKind : m.channelKind = .guildText) (hGuild : m.guild = some g)
    (hCmd1 : m.messageType ≠ .chatInputCommand) (hCmd2 : m.messageType ≠ .contextMenuCommand)
    (hGuildAllow : guildEntriesPresent cfg.guildEntries = false
      ∨ (discordGuildInfo cfg m).isSome = true)
    (hChan : (discordChannelConfig cfg m).map (fun c => c.allowed) = some true)
    (hMention : discordRequireMention cfg m = false ∨ cfg.botId = none
      ∨ discordWasMentioned cfg m = true)
    (hUsers : discordGuildUserBlocked cfg m a = false)
    (hSys : resolveDiscordSystemEvent m = none)
    (hMed : resolveMedia m cfg.mediaMaxBytes = Except.ok med)
    (hText : discordTurnText m med ≠ "") :
    discordAdmission cfg h m = .proceed
      (guildHistoryAppend h m.channelId cfg.historyLimit true (discordBaseText m)
        (discordHistoryEntryOf m a))
      a med (discordTurnText m med) := by
  rcases hGuildAllow with hGE | hGI
  · rcases hMention with hM | hM | hM <;>
      simp [discordAdmission, hA, hBot, hKind, hGuild, hCmd1, hCmd2, hGE, hChan, hM,
        hUsers, hSys, hMed, hText]
  · rw [Option.isSome_iff_exists] at hGI
    obtain ⟨gi, hgi⟩ := hGI
    rcases hMention with hM | hM | hM <;>
      simp [discordAdmission, hA, hBot, hKind, hGuild, hCmd1, hCmd2, hgi, hChan, hM,
        hUsers, hSys, hMed, hText]

theorem discordAdmission_drop_mention
    (cfg : DiscordMonitorConfig) (h : HistMap) (m : DiscordInboundMessage)
    (a : DiscordAuthor) (g : DiscordGuildRef) (b : String)
    (hA : m.author = some a) (hBot : a.isBot = false)
    (hKind : m.channelKind = .guildText) (hGuild : m.guild = some g)
    (hCmd1 : m.messageType ≠ .chatInputCommand) (hCmd2 : m.messageType ≠ .contextMenuCommand)
    (hGuildAllow : guildEntriesPresent cfg.guildEntries = false
      ∨ (discordGuildInfo cfg m).isSome = true)
    (hChan : (discordChannelConfig cfg m).map (fun c => c.allowed) = some true)
    (hBotId : cfg.botId = some b)
    (hReq : discordRequireMention cfg m = true)
    (hNoM : discordWasMentioned cfg m = false) :
    discordAdmission cfg h m = .drop
      (guildHistoryAppend h m.channelId cfg.historyLimit true (discordBaseText m)
        (discordHistoryEntryOf m a))
      .mentionRequired none none := by
  rcases hGuildAllow with hGE | hGI
  · simp [discordAdmission, hA, hBot, hKind, hGuild, hCmd1, hCmd2, hGE, hChan, hBotId,
      hReq, hNoM]
  · rw [Option.isSome_iff_exists] at hGI
    obtain ⟨gi, hgi⟩ := hGI
    simp [discordAdmission, hA, hBot, hKind, hGuild, hCmd1, hCmd2, hgi, hChan, hBotId,
      hReq, hNoM]

theorem discordAdmission_drop_users
    (cfg : DiscordMonitorConfig) (h : HistMap) (m : DiscordInboundMessage)
    (a : DiscordAuthor) (g : DiscordGuildRef)
    (hA : m.author = some a) (hBot : a.isBot = false)
    (hKind : m.channelKind = .guildText) (hGuild : m.guild = some g)
    (hCmd1 : m.messageType ≠ .chatInputCommand) (hCmd2 : m.messageType ≠ .contextMenuCommand)
    (hGuildAllow : guildEntriesPresent cfg.guildEntries = false
      ∨ (discordGuildInfo cfg m).isSome = true)
    (hChan : (discordChannelConfig cfg m).map (fun c => c.allowed) = some true)
    (hMention : discordRequireMention cfg m = false ∨ cfg.botId = none
      ∨ discordWasMentioned cfg m = true)
    (hUser : discordGuildUserBlocked cfg m a = true) :
    discordAdmission cfg h m = .drop
      (guildHistoryAppend h m.channelId cfg.historyLimit true (discordBaseText m)
        (discordHistoryEntryOf m a))
      .guildUserNotAllowed none none := by
  rcases hGuildAllow with hGE | hGI
  · rcases hMention with hM | hM | hM <;>
      simp [discordAdmission, hA, hBot, hKind, hGuild, hCmd1, hCmd2, hGE, hChan, hM, hUser]
  · rw [Option.isSome_iff_exists] at hGI
    obtain ⟨gi, hgi⟩ := hGI
    rcases hMention with hM | hM | hM <;>
      simp [discordAdmission, hA, hBot, hKind, hGuild, hCmd1, hCmd2, hgi, hChan, hM, hUser]

theorem discordAdmission_drop_media_guild
    (cfg : DiscordMonitorConfig) (h : HistMap) (m : DiscordInboundMessage)
    (a : DiscordAuthor) (g : DiscordGuildRef) (e : String)
    (hA : m.author = some a) (hBot : a.isBot = false)
    (hKind : m.channelKind = .guildText) (hGuild : m.guild = some g)
    (hCmd1 : m.messageType ≠ .chatInputCommand) (hCmd2 : m.messageType ≠ .contextMenuCommand)
    (hGuildAllow : guildEntriesPresent cfg.guildEntries = false
      ∨ (discordGuildInfo cfg m).isSome = true)
    (hChan : (discordChannelConfig cfg m).map (fun c => c.allowed) = some true)
    (hMention : discordRequireMention cfg m = false ∨ cfg.botId = none
      ∨ discordWasMentioned cfg m = true)
    (hUsers : discordGuildUserBlocked cfg m a = false)
    (hSys : resolveDiscordSystemEvent m = none)
    (hMedErr : resolveMedia m cfg.mediaMaxBytes = Except.error e) :
    discordAdmission cfg h m = .drop
      (guildHistoryAppend h m.channelId cfg.historyLimit true (discordBaseText m)
        (discordHistoryEntryOf m a))
      .mediaFetchFailed none (some e) := by
  rcases hGuildAllow with hGE | hGI
  · rcases hMention with hM | hM | hM <;>
      simp [discordAdmission, hA, hBot, hKind, hGuild, hCmd1, hCmd2, hGE, hChan, hM,
        hUsers, hSys, hMedErr]
  · rw [Option.isSome_iff_exists] at hGI
    obtain ⟨gi, hgi⟩ := hGI
    rcases hMention with hM | hM | hM <;>
      simp [discordAdmission, hA, hBot, hKind, hGuild, hCmd1, hCmd2, hgi, hChan, hM,
        hUsers, hSys, hMedErr]

theorem discordAdmission_drop_media_dm
    (cfg : DiscordMonitorConfig) (h : HistMap) (m : DiscordInboundMessage)
    (a : DiscordAuthor) (e : String)
    (hA : m.author = some a) (hBot : a.isBot = false)
    (hKind : m.channelKind = .dm) (hGuild : m.guild = none)
    (hDmE : cfg.dmEnabled = true)
    (hBlocked : discordDmBlocked cfg a = false)
    (hSys : resolveDiscordSystemEvent m = none)
    (hMedErr : resolveMedia m cfg.mediaMaxBytes = Except.error e) :
    discordAdmission cfg h m = .drop h .mediaFetchFailed none (some e) := by
  simp [discordAdmission, hA, hBot, hKind, hGuild, hDmE, hBlocked, hSys, hMedErr,
    guildHistoryAppend]

theorem discordAdmission_drop_dm_blocked
    (cfg : DiscordMonitorConfig) (h : HistMap) (m : DiscordInboundMessage)
    (a : DiscordAuthor)
    (hA : m.author = some a) (hBot : a.isBot = false)
    (hKind : m.channelKind = .dm) (hGuild : m.guild = none)
    (hDmE : cfg.dmEnabled = true)
    (hBlocked : discordDmBlocked cfg a = true) :
    discordAdmission cfg h m = .drop h .dmSenderNotAllowed none none := by
  simp [discordAdmission, hA, hBot, hKind, hGuild, hDmE, hBlocked, guildHistoryAppend]

theorem discordAdmission_drop_dm_disabled
    (cfg : DiscordMonitorConfig) (h : HistMap) (m : DiscordInboundMessage)
    (a : DiscordAuthor)
    (hA : m.author = some a) (hBot : a.isBot = false)
    (hKind : m.channelKind = .dm) (_hGuild : m.guild = none)
    (hDmE : cfg.dmEnabled = false) :
    discordAdmission cfg h m = .drop h .dmDisabled none none := by
  simp [discordAdmission, hA, hBot, hKind, hDmE]

/-- Claim C3 (amended): for a guild turn that passed admission, with history
enabled and generation completing without error, the channel history is
reset to empty immediately after the turn whenever at least one reply
payload was delivered (a block reply or a non-empty final result); when no
delivery was attempted (silent turn, no block replies) the history is left
exactly as the admission phase left it. The original unconditional claim
fails when generation throws after a block reply was already delivered
(`c3_generation_failure_counterexample`). -/
theorem c3_clear_if_replied (cfg : DiscordMonitorConfig) (h h1 : HistMap)
    (m : DiscordInboundMessage) (gen : GenerationOutcome) (a : DiscordAuthor)
    (med : Option DiscordMediaInfo) (t : String) (g : DiscordGuildRef)
    (hAdm : discordAdmission cfg h m = AdmissionResult.proceed h1 a med t)
    (hKind : m.channelKind = .guildText) (hGuild : m.guild = some g)
    (hOk : gen.failed = false) (hLim : 0 < cfg.historyLimit) :
    ((gen.blocks.filter blockAccepted ≠ [] ∨ normalizeReplyResult gen.result ≠ []) →
        (handleMessageCreate cfg h m gen).histories m.channelId = [])
    ∧ (gen.blocks.filter blockAccepted = [] → normalizeReplyResult gen.result = [] →
        ∀ k, (handleMessageCreate cfg h m gen).histories k = h1 k) := by
  unfold handleMessageCreate
  rw [hAdm]
  unfold discordTurnOutcome
  have hdm : (m.channelKind == DiscordChannelKind.dm) = false := by
    simp [hKind]
  simp only [hdm, Bool.false_eq_true, if_false, hGuild, Option.isSome_some, hOk,
    Bool.not_false]
  rw [if_neg (channelTarget_ne_empty m.channelId)]
  constructor
  · intro hDel
    by_cases hR : (normalizeReplyResult gen.result).isEmpty = true
    · have hB : gen.blocks.filter blockAccepted ≠ [] := by
        rcases hDel with hB | hRne
        · exact hB
        · exact absurd (List.isEmpty_iff.mp hR) hRne
      simp only [hR, if_true]
      rw [if_pos ⟨trivial, trivial, hLim, by simp [hB]⟩]
      simp [updateMap]
    · have hRf : (normalizeReplyResult gen.result).isEmpty = false := by
        simp only [Bool.not_eq_true] at hR
        exact hR
      simp only [hRf, Bool.false_eq_true, if_false]
      rw [if_pos ⟨trivial, trivial, hLim⟩]
      simp [updateMap]
  · intro hB hR k
    have hRt : (normalizeReplyResult gen.result).isEmpty = true := by
      simp [hR]
    have hBt : (gen.blocks.filter blockAccepted).isEmpty = true := by
      simp [hB]
    simp only [hRt, if_true]
    rw [if_neg (fun hc => by simp [hBt] at hc)]

theorem discordTurnOutcome_invoked (cfg : DiscordMonitorConfig) (m : DiscordInboundMessage)
    (gen : GenerationOutcome) (h1 : HistMap) (a : DiscordAuthor)
    (med : Option DiscordMediaInfo) (t : String) (hKind : m.channelKind = .guildText) :
    (discordTurnOutcome cfg m gen h1 a med t).invokedGenerate = true := by
  unfold discordTurnOutcome
  have hdm : (m.channelKind == DiscordChannelKind.dm) = false := by
    simp [hKind]
  simp only [hdm, Bool.false_eq_true, if_false]
  rw [if_neg (channelTarget_ne_empty m.channelId)]
  split
  · rfl
  · split <;> rfl

theorem discordTurnOutcome_context (cfg : DiscordMonitorConfig) (m : DiscordInboundMessage)
    (gen : GenerationOutcome) (h1 : HistMap) (a : DiscordAuthor)
    (med : Option DiscordMediaInfo) (t : String) (hKind : m.channelKind = .guildText)
    (hLim : 0 < cfg.historyLimit) (hne : 0 < (h1 m.channelId).length) :
    (discordTurnOutcome cfg m gen h1 a med t).contextHistory = (h1 m.channelId).dropLast := by
  unfold discordTurnOutcome
  have hdm : (m.channelKind == DiscordChannelKind.dm) = false := by
    simp [hKind]
  simp only [hdm, Bool.false_eq_true, if_false, not_false_eq_true, if_true, hLim, hne]
  rw [if_neg (channelTarget_ne_empty m.channelId)]
  split
  · rfl
  · split <;> rfl

/-- Counterexample for the original C3: when generation throws after one
block reply was already delivered, the turn has one delivered send yet the
channel history is not cleared. -/
theorem c3_generation_failure_counterexample :
    (handleMessageCreate cfgW (fun _ => []) msgMentionW genFailW).sends.length = 1
    ∧ (handleMessageCreate cfgW (fun _ => []) msgMentionW genFailW).histories "C"
        = [{ sender := "u#1", body := "hello bot", timestamp := some 1,
             messageId := some "M1" }] := by
  decide

/-- Witness for C3 at a concrete answered guild turn. -/
theorem c3_clear_if_replied_witness :
    (handleMessageCreate cfgW (fun _ => []) msgMentionW genOkW).histories "C" = [] :=
  (c3_clear_if_replied cfgW (fun _ => [])
    (guildHistoryAppend (fun _ => []) msgMentionW.channelId cfgW.historyLimit true
      (discordBaseText msgMentionW) (discordHistoryEntryOf msgMentionW authorW))
    msgMentionW genOkW authorW none (discordTurnText msgMentionW none) guildW
    (discordAdmission_proceeds_guild cfgW (fun _ => []) msgMentionW authorW guildW none
      rfl rfl rfl rfl (by decide) (by decide) (by decide) (by decide) (by decide)
      (by decide) (by decide) rfl (by decide))
    rfl rfl rfl (by decide)).1 (Or.inr (by decide))

/-- Claim C6: in a guild channel where the resolved mention requirement
(channel override, else guild setting, else true) is true and the bot id is
known, a message that does not mention the bot is dropped with zero outbound
sends and without invoking reply generation; the same message with a
mention (and passing the remaining per-turn checks) reaches reply
generation. -/
theorem c6_mention_gating (cfg : DiscordMonitorConfig) (h : HistMap)
    (m : DiscordInboundMessage) (gen : GenerationOutcome) (a : DiscordAuthor)
    (g : DiscordGuildRef) (b : String)
    (hA : m.author = some a) (hBot : a.isBot = false)
    (hKind : m.channelKind = .guildText) (hGuild : m.guild = some g)
    (hCmd1 : m.messageType ≠ .chatInputCommand) (hCmd2 : m.messageType ≠ .contextMenuCommand)
    (hGuildAllow : guildEntriesPresent cfg.guildEntries = false
      ∨ (discordGuildInfo cfg m).isSome = true)
    (hChan : (discordChannelConfig cfg m).map (fun c => c.allowed) = some true)
    (hBotId : cfg.botId = some b)
    (hReq : discordRequireMention cfg m = true) :
    (discordWasMentioned cfg m = false →
        (handleMessageCreate cfg h m gen).sends = []
        ∧ (handleMessageCreate cfg h m gen).invokedGenerate = false)
    ∧ (discordWasMentioned cfg m = true →
        discordGuildUserBlocked cfg m a = false →
        resolveDiscordSystemEvent m = none →
        ∀ med, resolveMedia m cfg.mediaMaxBytes = Except.ok med →
        discordTurnText m med ≠ "" →
        (handleMessageCreate cfg h m gen).invokedGenerate = true) := by
  constructor
  · intro hNoM
    rw [handleMessageCreate,
      discordAdmission_drop_mention cfg h m a g b hA hBot hKind hGuild hCmd1 hCmd2
        hGuildAllow hChan hBotId hReq hNoM]
    exact ⟨rfl, rfl⟩
  · intro hWm hUsers hSys med hMed hText
    rw [handleMessageCreate,
      discordAdmission_proceeds_guild cfg h m a g med hA hBot hKind hGuild hCmd1 hCmd2
        hGuildAllow hChan (Or.inr (Or.inr hWm)) hUsers hSys hMed hText]
    exact discordTurnOutcome_invoked cfg m gen _ a med _ hKind

/-- Witness for C6: the same guild configuration drops the unmentioned
message with zero sends and runs generation for the mentioned one. -/
theorem c6_mention_gating_witness :
    ((handleMessageCreate cfgW (fun _ => []) msgNoMentionW genOkW).sends = []
      ∧ (handleMessageCreate cfgW (fun _ => []) msgNoMentionW genOkW).invokedGenerate = false)
    ∧ (handleMessageCreate cfgW (fun _ => []) msgMentionW genOkW).invokedGenerate = true :=
  ⟨(c6_mention_gating cfgW (fun _ => []) msgNoMentionW genOkW authorW guildW "B"
      rfl rfl rfl rfl (by decide) (by decide) (by decide) (by decide) rfl
      (by decide)).1 (by decide),
   (c6_mention_gating cfgW (fun _ => []) msgMentionW genOkW authorW guildW "B"
      rfl rfl rfl rfl (by decide) (by decide) (by decide) (by decide) rfl
      (by decide)).2 (by decide) (by decide) (by decide) none rfl (by decide)⟩

/-- Claim C7 (amended): a turn whose attachment download fails (non-2xx)
aborts with a media-fetch error: zero outbound sends, reply generation never
invoked, and the error recorded. The original claim of zero history appends
holds only for direct messages; for a guild message the history entry is
appended before media resolution and is retained
(`c7_history_retained_counterexample`). -/
theorem c7_media_fetch_failure (cfg : DiscordMonitorConfig) (h : HistMap)
    (m : DiscordInboundMessage) (gen : GenerationOutcome) (a : DiscordAuthor) (e : String)
    (hA : m.author = some a) (hBot : a.isBot = false)
    (hSys : resolveDiscordSystemEvent m = none)
    (hMedErr : resolveMedia m cfg.mediaMaxBytes = Except.error e) :
    (∀ g, m.channelKind = .guildText → m.guild = some g →
      m.messageType ≠ .chatInputCommand → m.messageType ≠ .contextMenuCommand →
      (guildEntriesPresent cfg.guildEntries = false
        ∨ (discordGuildInfo cfg m).isSome = true) →
      (discordChannelConfig cfg m).map (fun c => c.allowed) = some true →
      (discordRequireMention cfg m = false ∨ cfg.botId = none
        ∨ discordWasMentioned cfg m = true) →
      discordGuildUserBlocked cfg m a = false →
      (handleMessageCreate cfg h m gen).sends = []
      ∧ (handleMessageCreate cfg h m gen).invokedGenerate = false
      ∧ (handleMessageCreate cfg h m gen).mediaError = some e
      ∧ ∀ k, (handleMessageCreate cfg h m gen).histories k
          = guildHistoryAppend h m.channelId cfg.historyLimit true (discordBaseText m)
              (discordHistoryEntryOf m a) k)
    ∧ (m.channelKind = .dm → m.guild = none → cfg.dmEnabled = true →
      discordDmBlocked cfg a = false →
      (handleMessageCreate cfg h m gen).sends = []
      ∧ (handleMessageCreate cfg h m gen).invokedGenerate = false
      ∧ (handleMessageCreate cfg h m gen).mediaError = some e
      ∧ ∀ k, (handleMessageCreate cfg h m gen).histories k = h k) := by
  constructor
  · intro g hKind hGuild hCmd1 hCmd2 hGuildAllow hChan hMention hUsers
    rw [handleMessageCreate,
      discordAdmission_drop_media_guild cfg h m a g e hA hBot hKind hGuild hCmd1 hCmd2
        hGuildAllow hChan hMention hUsers hSys hMedErr]
    exact ⟨rfl, rfl, rfl, fun k => rfl⟩
  · intro hKind hGuild hDmE hBlocked
    rw [handleMessageCreate,
      discordAdmission_drop_media_dm cfg h m a e hA hBot hKind hGuild hDmE hBlocked
        hSys hMedErr]
    exact ⟨rfl, rfl, rfl, fun k => rfl⟩

/-- Counterexample for the original C7: a guild message whose attachment
download returns HTTP 404 produces zero sends, yet one history entry (the
media placeholder text) has been appended for the event. -/
theorem c7_history_retained_counterexample :
    (handleMessageCreate cfgW (fun _ => []) msgMediaW genOkW).sends = []
    ∧ (handleMessageCreate cfgW (fun _ => []) msgMediaW genOkW).histories "C"
        = [{ sender := "u#1", body := "<media:image>", timestamp := some 3,
             messageId := some "M3" }]
    ∧ (handleMessageCreate cfgW (fun _ => []) msgMediaW genOkW).invokedGenerate = false := by
  decide

/-- Witness for C7 at the concrete 404-attachment guild message. -/
theorem c7_media_fetch_failure_witness :
    (handleMessageCreate cfgW (fun _ => []) msgMediaW genOkW).sends = []
    ∧ (handleMessageCreate cfgW (fun _ => []) msgMediaW genOkW).mediaError
        = some "Failed to download discord attachment: HTTP 404" :=
  ⟨((c7_media_fetch_failure cfgW (fun _ => []) msgMediaW genOkW authorW
      "Failed to download discord attachment: HTTP 404" rfl rfl (by decide) rfl).1
      guildW rfl rfl (by decide) (by decide) (by decide) (by decide) (by decide)
      (by decide)).1,
   ((c7_media_fetch_failure cfgW (fun _ => []) msgMediaW genOkW authorW
      "Failed to download discord attachment: HTTP 404" rfl rfl (by decide) rfl).1
      guildW rfl rfl (by decide) (by decide) (by decide) (by decide) (by decide)
      (by decide)).2.2.1⟩

/-- Claim C8: an inbound direct message whose sender does not match the
non-empty configured `allowFrom` list is silently dropped — zero outbound
sends, no history mutation, no session-route update, and reply generation is
never invoked. -/
theorem c8_dm_allowfrom_drop (cfg : DiscordMonitorConfig) (h : HistMap)
    (m : DiscordInboundMessage) (gen : GenerationOutcome) (a : DiscordAuthor)
    (hA : m.author = some a) (hBot : a.isBot = false)
    (hKind : m.channelKind = .dm) (hGuild : m.guild = none)
    (hBlocked : discordDmBlocked cfg a = true) :
    (handleMessageCreate cfg h m gen).sends = []
    ∧ (handleMessageCreate cfg h m gen).invokedGenerate = false
    ∧ (∀ k, (handleMessageCreate cfg h m gen).histories k = h k)
    ∧ (handleMessageCreate cfg h m gen).routeTo = none := by
  cases hDmE : cfg.dmEnabled with
  | false =>
    rw [handleMessageCreate,
      discordAdmission_drop_dm_disabled cfg h m a hA hBot hKind hGuild hDmE]
    exact ⟨rfl, rfl, fun k => rfl, rfl⟩
  | true =>
    rw [handleMessageCreate,
      discordAdmission_drop_dm_blocked cfg h m a hA hBot hKind hGuild hDmE hBlocked]
    exact ⟨rfl, rfl, fun k => rfl, rfl⟩

/-- Witness for C8: a DM from an unlisted sender under `allowFrom =
["12345"]` yields no sends, no generation, and untouched history. -/
theorem c8_dm_allowfrom_drop_witness :
    (handleMessageCreate cfgDmW (fun _ => []) msgDmW genOkW).sends = []
    ∧ (handleMessageCreate cfgDmW (fun _ => []) msgDmW genOkW).invokedGenerate = false
    ∧ (handleMessageCreate cfgDmW (fun _ => []) msgDmW genOkW).histories "D" = []
    ∧ (handleMessageCreate cfgDmW (fun _ => []) msgDmW genOkW).routeTo = none :=
  ⟨(c8_dm_allowfrom_drop cfgDmW (fun _ => []) msgDmW genOkW authorW rfl rfl rfl rfl
      (by decide)).1,
   (c8_dm_allowfrom_drop cfgDmW (fun _ => []) msgDmW genOkW authorW rfl rfl rfl rfl
      (by decide)).2.1,
   (c8_dm_allowfrom_drop cfgDmW (fun _ => []) msgDmW genOkW authorW rfl rfl rfl rfl
      (by decide)).2.2.1 "D",
   (c8_dm_allowfrom_drop cfgDmW (fun _ => []) msgDmW genOkW authorW rfl rfl rfl rfl
      (by decide)).2.2.2⟩

theorem mem_lastN_concat {α : Type} (n : Nat) (l : List α) (x : α) (hn : 0 < n) :
    x ∈ lastN n (l ++ [x]) := by
  unfold lastN
  rw [List.drop_append_eq_append_drop]
  refine List.mem_append.mpr (Or.inr ?_)
  have : ((l ++ [x]).length - n) - l.length = 0 := by
    simp only [List.length_append, List.length_singleton]
    omega
  rw [this]
  simp

/-- Claim C10 (amended): in guild channels with `historyLimit > 0`, a
text-bearing inbound message is appended to the channel history before the
mention gate and before the per-guild user allow-list run, so a message
dropped by either gate still ends up recorded (zero sends, generation never
invoked, history extended by the entry); and the recorded entry appears in
the context prefix of the next answered text-bearing turn provided the
history limit has not evicted it (`c10_eviction_counterexample` refutes the
unconditional inclusion at `historyLimit = 1`). -/
theorem c10_history_append_precedes_gates (cfg : DiscordMonitorConfig) (h : HistMap)
    (m : DiscordInboundMessage) (gen : GenerationOutcome) (a : DiscordAuthor)
    (g : DiscordGuildRef) (b : String)
    (hA : m.author = some a) (hBot : a.isBot = false)
    (hKind : m.channelKind = .guildText) (hGuild : m.guild = some g)
    (hCmd1 : m.messageType ≠ .chatInputCommand) (hCmd2 : m.messageType ≠ .contextMenuCommand)
    (hGuildAllow : guildEntriesPresent cfg.guildEntries = false
      ∨ (discordGuildInfo cfg m).isSome = true)
    (hChan : (discordChannelConfig cfg m).map (fun c => c.allowed) = some true)
    (hLim : 0 < cfg.historyLimit) (hBase : discordBaseText m ≠ "") :
    (cfg.botId = some b → discordRequireMention cfg m = true →
      discordWasMentioned cfg m = false →
      (handleMessageCreate cfg h m gen).sends = []
      ∧ (handleMessageCreate cfg h m gen).invokedGenerate = false
      ∧ (handleMessageCreate cfg h m gen).histories m.channelId
          = lastN cfg.historyLimit (h m.channelId ++ [discordHistoryEntryOf m a])
      ∧ discordHistoryEntryOf m a ∈ (handleMessageCreate cfg h m gen).histories m.channelId)
    ∧ (discordWasMentioned cfg m = true → discordGuildUserBlocked cfg m a = true →
      (handleMessageCreate cfg h m gen).sends = []
      ∧ (handleMessageCreate cfg h m gen).invokedGenerate = false
      ∧ (handleMessageCreate cfg h m gen).histories m.channelId
          = lastN cfg.historyLimit (h m.channelId ++ [discordHistoryEntryOf m a])
      ∧ discordHistoryEntryOf m a ∈ (handleMessageCreate cfg h m gen).histories m.channelId)
    ∧ (cfg.botId = some b → discordRequireMention cfg m = true →
      discordWasMentioned cfg m = false →
      (h m.channelId).length + 2 ≤ cfg.historyLimit →
      ∀ (m2 : DiscordInboundMessage) (a2 : DiscordAuthor) (g2 : DiscordGuildRef)
        (gen2 : GenerationOutcome) (med2 : Option DiscordMediaInfo),
        m2.channelId = m.channelId →
        m2.author = some a2 → a2.isBot = false →
        m2.channelKind = .guildText → m2.guild = some g2 →
        m2.messageType ≠ .chatInputCommand → m2.messageType ≠ .contextMenuCommand →
        (guildEntriesPresent cfg.guildEntries = false
          ∨ (discordGuildInfo cfg m2).isSome = true) →
        (discordChannelConfig cfg m2).map (fun c => c.allowed) = some true →
        (discordRequireMention cfg m2 = false ∨ cfg.botId = none
          ∨ discordWasMentioned cfg m2 = true) →
        discordGuildUserBlocked cfg m2 a2 = false →
        resolveDiscordSystemEvent m2 = none →
        resolveMedia m2 cfg.mediaMaxBytes = Except.ok med2 →
        discordTurnText m2 med2 ≠ "" →
        discordBaseText m2 ≠ "" →
        discordHistoryEntryOf m a
          ∈ (handleMessageCreate cfg (handleMessageCreate cfg h m gen).histories
              m2 gen2).contextHistory) := by
  have hretain : ∀ reason sys err,
      discordAdmission cfg h m = AdmissionResult.drop
        (guildHistoryAppend h m.channelId cfg.historyLimit true (discordBaseText m)
          (discordHistoryEntryOf m a)) reason sys err →
      (handleMessageCreate cfg h m gen).sends = []
      ∧ (handleMessageCreate cfg h m gen).invokedGenerate = false
      ∧ (handleMessageCreate cfg h m gen).histories m.channelId
          = lastN cfg.historyLimit (h m.channelId ++ [discordHistoryEntryOf m a])
      ∧ discordHistoryEntryOf m a
          ∈ (handleMessageCreate cfg h m gen).histories m.channelId := by
    intro reason sys err hAdm
    rw [handleMessageCreate, hAdm]
    have hh : guildHistoryAppend h m.channelId cfg.historyLimit true (discordBaseText m)
        (discordHistoryEntryOf m a) m.channelId
        = lastN cfg.historyLimit (h m.channelId ++ [discordHistoryEntryOf m a]) := by
      rw [guildHistoryAppend_pos h m.channelId cfg.historyLimit (discordBaseText m)
        (discordHistoryEntryOf m a) hLim hBase, updateMap, if_pos rfl, evictOldest_eq_lastN]
    refine ⟨rfl, rfl, hh, ?_⟩
    show discordHistoryEntryOf m a ∈ guildHistoryAppend h m.channelId cfg.historyLimit true
      (discordBaseText m) (discordHistoryEntryOf m a) m.channelId
    rw [hh]
    exact mem_lastN_concat _ _ _ hLim
  refine ⟨?_, ?_, ?_⟩
  · intro hBotId hReq hNoM
    exact hretain _ _ _ (discordAdmission_drop_mention cfg h m a g b hA hBot hKind hGuild
      hCmd1 hCmd2 hGuildAllow hChan hBotId hReq hNoM)
  · intro hWm hUser
    exact hretain _ _ _ (discordAdmission_drop_users cfg h m a g hA hBot hKind hGuild
      hCmd1 hCmd2 hGuildAllow hChan (Or.inr (Or.inr hWm)) hUser)
  · intro hBotId hReq hNoM hRoom m2 a2 g2 gen2 med2 hCh hA2 hBot2 hKind2 hGuild2 hCmd12
      hCmd22 hGuildAllow2 hChan2 hMention2 hUsers2 hSys2 hMed2 hText2 hBase2
    have hr1 := (hretain _ _ _ (discordAdmission_drop_mention cfg h m a g b hA hBot hKind
      hGuild hCmd1 hCmd2 hGuildAllow hChan hBotId hReq hNoM)).2.2.1
    have hfit : (handleMessageCreate cfg h m gen).histories m.channelId
        = h m.channelId ++ [discordHistoryEntryOf m a] := by
      rw [hr1]
      apply lastN_of_le
      simp only [List.length_append, List.length_singleton]
      omega
    rw [handleMessageCreate,
      discordAdmission_proceeds_guild cfg ((handleMessageCreate cfg h m gen).histories)
        m2 a2 g2 med2 hA2 hBot2 hKind2 hGuild2 hCmd12 hCmd22 hGuildAllow2 hChan2
        hMention2 hUsers2 hSys2 hMed2 hText2]
    have hh2 : guildHistoryAppend ((handleMessageCreate cfg h m gen).histories)
        m2.channelId cfg.historyLimit true (discordBaseText m2)
        (discordHistoryEntryOf m2 a2) m2.channelId
        = (h m.channelId ++ [discordHistoryEntryOf m a]) ++ [discordHistoryEntryOf m2 a2] := by
      rw [guildHistoryAppend_pos _ _ _ _ _ hLim hBase2, updateMap, if_pos rfl,
        evictOldest_eq_lastN, hCh, hfit]
      apply lastN_of_le
      simp only [List.length_append, List.length_singleton]
      omega
    rw [discordTurnOutcome_context cfg m2 gen2 _ a2 med2 _ hKind2 hLim
      (by rw [hh2]; simp)]
    rw [hh2]
    simp

/-- Counterexample for the original C10 parenthetical: at `historyLimit = 1`
a message dropped for lacking a mention is recorded, but the next answered
turn evicts it, so its entry does not appear in the context prefix of that turn. -/
theorem c10_eviction_counterexample :
    (handleMessageCreate cfgLimit1W (fun _ => []) msgNoMentionW genOkW).histories "C"
      = [{ sender := "u#1", body := "no mention here", timestamp := some 2,
           messageId := some "M2" }]
    ∧ (handleMessageCreate cfgLimit1W
        (handleMessageCreate cfgLimit1W (fun _ => []) msgNoMentionW genOkW).histories
        msgAskW genOkW).invokedGenerate = true
    ∧ (handleMessageCreate cfgLimit1W
        (handleMessageCreate cfgLimit1W (fun _ => []) msgNoMentionW genOkW).histories
        msgAskW genOkW).contextHistory = [] := by
  decide

/-- Witness for C10: with limit 5 the unmentioned message is recorded at the
drop and shows up in the context prefix of the next answered turn. -/
theorem c10_history_append_precedes_gates_witness :
    (handleMessageCreate cfgW (fun _ => []) msgNoMentionW genOkW).sends = []
    ∧ discordHistoryEntryOf msgNoMentionW authorW
        ∈ (handleMessageCreate cfgW (fun _ => []) msgNoMentionW genOkW).histories "C"
    ∧ discordHistoryEntryOf msgNoMentionW authorW
        ∈ (handleMessageCreate cfgW
            (handleMessageCreate cfgW (fun _ => []) msgNoMentionW genOkW).histories
            msgAskW genOkW).contextHistory :=
  ⟨((c10_history_append_precedes_gates cfgW (fun _ => []) msgNoMentionW genOkW authorW
      guildW "B" rfl rfl rfl rfl (by decide) (by decide) (by decide) (by decide)
      (by decide) (by decide)).1 rfl (by decide) (by decide)).1,
   ((c10_history_append_precedes_gates cfgW (fun _ => []) msgNoMentionW genOkW authorW
      guildW "B" rfl rfl rfl rfl (by decide) (by decide) (by decide) (by decide)
      (by decide) (by decide)).1 rfl (by decide) (by decide)).2.2.2,
   ((c10_history_append_precedes_gates cfgW (fun _ => []) msgNoMentionW genOkW authorW
      guildW "B" rfl rfl rfl rfl (by decide) (by decide) (by decide) (by decide)
      (by decide) (by decide)).2.2 rfl (by decide) (by decide) (by decide)
      msgAskW authorW guildW genOkW none rfl rfl rfl rfl rfl (by decide) (by decide)
      (by decide) (by decide) (by decide) (by decide) (by decide) rfl (by decide)
      (by decide))⟩
